import Mathlib

/-!
# goqris: response normalizer, token cache and provider clients

A shallow embedding of `goqris.go`, `bni.go` and `bri.go`.

* A Go `string` is a finite sequence of bytes; `len` is the number of bytes and
  `s[i:j]` slices bytes.  Bytes are natural numbers.
* `map[string]any` is a finite lookup function, with `none` for the nil map.
* `int64` arithmetic is integer arithmetic followed by an explicit wrap.
* Library calls whose result is not determined by the repository (HTTP, JSON
  encoding, cryptography, the clock) are fields of an environment record.
-/

namespace Goqris

/-! ## Strings and dynamically typed values -/

/-- A Go string: a sequence of bytes. -/
abbrev GoString := List Nat

/-- The bytes (UTF-8) of a string literal of the source. -/
def lit (s : String) : GoString :=
  (s.data.flatMap String.utf8EncodeChar).map UInt8.toNat

/-- A value of Go type `any` as far as the package inspects it: a `string`, a
value of the named map type `M` (possibly the nil map), or anything else
(numbers, booleans, nil, slices, `map[string]interface{}`, ...), kept as an
uninterpreted identifier. -/
inductive Val where
  | str (s : GoString)
  | obj (m : Option (GoString → Option Val))
  | other (id : Nat)

/-- Go type `M` (`map[string]any`); `none` is the nil map. -/
abbrev M := Option (GoString → Option Val)

/-- The two-valued index expression `v, ok := m[k]`; reading a nil map finds
nothing. -/
def index (m : M) (k : GoString) : Option Val :=
  match m with
  | none => none
  | some f => f k

/-- A map literal `M{k1: v1, ...}` (never nil). -/
def mapOf (l : List (GoString × Val)) : M :=
  some (fun k => l.lookup k)

/-- Result of a computation that may panic. -/
inductive Outcome (α : Type) where
  | ret (a : α)
  | panic

/-- The statement `m[k] = v`; assignment to an entry of a nil map panics. -/
def assign (m : M) (k : GoString) (v : Val) : Outcome M :=
  match m with
  | none => .panic
  | some f => .ret (some (fun k2 => if k2 = k then some v else f k2))

/-! ## `goqris.go`: accessors of `M` -/

/-- `func (m M) GetValue(k string) string`: the type assertion
`v, _ := m[k].(string)` yields the empty string unless `m[k]` is a string. -/
def GetValue (m : M) (k : GoString) : GoString :=
  match index m k with
  | some (.str s) => s
  | _ => []

/-- `func (m M) SetValueIfEmpty(k string, v any)`: assigns unless `m[k]` holds
a string. The result is the map after the call. -/
def SetValueIfEmpty (m : M) (k : GoString) (v : Val) : Outcome M :=
  match index m k with
  | some (.str _) => .ret m
  | _ => assign m k v

/-- The package variable `successCodes`. -/
def successCodes : List GoString := [lit "00", lit "200"]

/-- The package variable `successMessages`. -/
def successMessages : List GoString :=
  [lit "Successful", lit "Successfully", lit "success", lit "Payment Success"]

/-- `func (m M) SuccessfulGenerate() bool`. -/
def SuccessfulGenerate (m : M) : Bool :=
  let code := GetValue m (lit "code")
  let code :=
    if code = [] then
      let code := GetValue m (lit "responseCode")
      if code.length ≥ 7 then code.take 3 else code
    else code
  let message := GetValue m (lit "message")
  let message := if message = [] then GetValue m (lit "responseMessage") else message
  successCodes.contains code && successMessages.contains message

/-- `func (m M) SuccessfulPaid() bool`. -/
def SuccessfulPaid (m : M) : Bool :=
  let code := GetValue m (lit "payment_status")
  let code := if code = [] then GetValue m (lit "latestTransactionStatus") else code
  let message := GetValue m (lit "payment_description")
  let message := if message = [] then GetValue m (lit "transactionStatusDesc") else message
  successCodes.contains code && successMessages.contains message

/-- `func (m M) RefNo() string`. -/
def RefNo (m : M) : GoString :=
  let refNo := GetValue m (lit "bill_number")
  if refNo = [] then GetValue m (lit "referenceNo") else refNo

/-- `func (m M) ServiceCode() string`; `sc[3:5]` is `(sc.drop 3).take 2`. -/
def ServiceCode (m : M) : GoString :=
  let sc := GetValue m (lit "responseCode")
  if sc.length ≥ 7 then (sc.drop 3).take 2 else sc

/-! ## Errors -/

/-- The cause carried by a `*strconv.NumError`. -/
inductive NumErrKind where
  | ErrSyntax
  | ErrRange
  deriving DecidableEq

/-- The `error` values that reach the package.  A nil `error` is `none` of
`Option Error`. -/
inductive Error where
  /-- `io.EOF` -/
  | EOF
  /-- `errors.New("the key of access_token or accessToken is undefined")` -/
  | accessTokenUndefined
  /-- `errors.New("the key of expires_in or expiresIn is undefined")` -/
  | expiresInUndefined
  /-- `&strconv.NumError{Func, Num, Err}` -/
  | numError (fn : GoString) (num : GoString) (kind : NumErrKind)
  /-- `fmt.Errorf("BNI(%s) - %s", errCode, errDesc)` -/
  | bni (errCode errDesc : GoString)
  /-- `fmt.Errorf("BRIMpmDynamic(%s) - %s", errorCode, errorDesc)` -/
  | briMpmDynamic (errorCode errorDesc : GoString)
  /-- any other error value made by a library (network, JSON, PEM, RSA, ...) -/
  | lib (id : Nat)
  deriving DecidableEq

/-! ## `strconv` at base 10 and bit size 64 -/

/-- Two's-complement reading of an integer as an `int64`. -/
def wrap64 (x : Int) : Int := (x + 9223372036854775808) % 18446744073709551616 - 9223372036854775808

/-- `strconv.lower`: `c | ('x' - 'X')`. -/
def lower (c : Nat) : Nat := c ||| 32

/-- The `switch` in the loop of `strconv.ParseUint`, without the underscore
case (the base is not 0): the digit value of a byte, `none` in the default
case. -/
def digitVal (c : Nat) : Option Nat :=
  if 48 ≤ c ∧ c ≤ 57 then some (c - 48)
  else if 97 ≤ lower c ∧ lower c ≤ 122 then some (lower c - 97 + 10)
  else none

/-- The loop of `strconv.ParseUint(s, 10, 64)` over the remaining bytes, with
`n` the value accumulated so far.  The result is the returned value together
with the cause of the error, if any. -/
def parseUintLoop : GoString → Nat → Nat × Option NumErrKind
  | [], n => (n, none)
  | c :: cs, n =>
    match digitVal c with
    | none => (0, some .ErrSyntax)
    | some d =>
      if d ≥ 10 then (0, some .ErrSyntax)
      -- cutoff = maxUint64/10 + 1
      else if n ≥ 1844674407370955162 then (18446744073709551615, some .ErrRange)
      else
        let n10 := (n * 10) % 18446744073709551616
        let n1 := (n10 + d) % 18446744073709551616
        if n1 < n10 ∨ n1 > 18446744073709551615 then (18446744073709551615, some .ErrRange)
        else parseUintLoop cs n1

/-- `strconv.ParseUint(s, 10, 64)`: value and cause of error. -/
def ParseUint (s : GoString) : Nat × Option NumErrKind :=
  if s = [] then (0, some .ErrSyntax) else parseUintLoop s 0

/-- The part of `strconv.ParseInt` after its call of `ParseUint`: `s0` is the
whole input, `neg` tells whether a minus sign was picked off, `r` is what
`ParseUint` returned.  `int64(un)` and the negation wrap. -/
def parseIntCheck (s0 : GoString) (neg : Bool) (r : Nat × Option NumErrKind) :
    Except Error Int :=
  match r with
  | (_, some .ErrSyntax) => .error (.numError (lit "ParseInt") s0 .ErrSyntax)
  | (un, _) =>
    -- cutoff = 1 << 63
    if neg = false ∧ un ≥ 9223372036854775808 then
      .error (.numError (lit "ParseInt") s0 .ErrRange)
    else if neg = true ∧ un > 9223372036854775808 then
      .error (.numError (lit "ParseInt") s0 .ErrRange)
    else
      let n := wrap64 (un : Int)
      .ok (if neg then wrap64 (-n) else n)

/-- `strconv.ParseInt(s, 10, 64)`.  The value Go returns next to a non-nil error
is dropped: the package never reads it. -/
def ParseInt (s : GoString) : Except Error Int :=
  match s with
  | [] => .error (.numError (lit "ParseInt") s .ErrSyntax)
  | c :: rest =>
    parseIntCheck s (decide (c = 45))
      (ParseUint (if c = 43 then rest else if c = 45 then rest else s))

/-- Decimal digits of `n`, most significant first, in front of `acc`; the fuel
bounds the number of digits. -/
def formatBits : Nat → Nat → GoString → GoString
  | 0, _, acc => acc
  | fuel + 1, n, acc =>
    if n < 10 then (48 + n) :: acc
    else formatBits fuel (n / 10) ((48 + n % 10) :: acc)

/-- `strconv.FormatInt(i, 10)` for an `int64` (at most 19 digits). -/
def FormatInt (i : Int) : GoString :=
  if i < 0 then 45 :: formatBits 20 (-i).toNat [] else formatBits 20 i.toNat []

/-! ## `time` -/

/-- A `time.Time` without monotonic reading: seconds since year 1 (`ext`) and
nanoseconds within the second.  Every `Time` the package compares is of this
form: `UTC()` strips the monotonic reading and `time.Unix` sets none. -/
structure Time where
  ext : Int
  nsec : Int
  deriving DecidableEq

/-- `time.unixToInternal`: seconds from year 1 to 1970. -/
def unixToInternal : Int := 62135596800

/-- `time.Unix(sec, 0)`. -/
def timeUnix (sec : Int) : Time := ⟨wrap64 (sec + unixToInternal), 0⟩

/-- `func (t Time) Unix() int64`. -/
def Time.Unix (t : Time) : Int := wrap64 (t.ext - unixToInternal)

/-- `func (t Time) Before(u Time) bool`. -/
def Time.Before (t u : Time) : Bool :=
  decide (t.ext < u.ext) || (decide (t.ext = u.ext) && decide (t.nsec < u.nsec))

/-- `func (t *Time) addSec(d int64)` for a time without monotonic reading: the
sum saturates instead of wrapping. -/
def Time.addSec (t : Time) (d : Int) : Time :=
  let sum := wrap64 (t.ext + d)
  if decide (sum > t.ext) = decide (d > 0) then ⟨sum, t.nsec⟩
  else if d > 0 then ⟨9223372036854775807, t.nsec⟩
  else ⟨-9223372036854775807, t.nsec⟩

/-- `func (t Time) Add(d Duration) Time`, with `d` in nanoseconds; Go integer
division truncates toward zero. -/
def Time.Add (t : Time) (d : Int) : Time :=
  let dsec := Int.tdiv d 1000000000
  let nsec := t.nsec + Int.tmod d 1000000000
  if nsec ≥ 1000000000 then
    Time.addSec ⟨t.ext, nsec - 1000000000⟩ (wrap64 (dsec + 1))
  else if nsec < 0 then
    Time.addSec ⟨t.ext, nsec + 1000000000⟩ (wrap64 (dsec - 1))
  else Time.addSec ⟨t.ext, nsec⟩ dsec

/-- `time.Duration(n) * time.Second`: an `int64` product, which wraps. -/
def secondsToDuration (n : Int) : Int := wrap64 (n * 1000000000)

/-! ## `goqris.go`: the access-token cache -/

/-- The package variable `cache`, a `map[string]map[string]string` (never
nil). -/
abbrev Cache := GoString → Option (GoString → Option GoString)

/-- The composite literal stored by `setAccessTokenToCache`. -/
def cacheRecord (accessToken expAtStr : GoString) : GoString → Option GoString :=
  fun k =>
    if k = lit "access_token" then some accessToken
    else if k = lit "expired_at" then some expAtStr
    else none

/-- `func getAccessTokenFromCache(key string) string`, with `now` the value of
`time.Now().UTC()`. -/
def getAccessTokenFromCache (cache : Cache) (now : Time) (key : GoString) : GoString :=
  match cache key with
  | none => []
  | some c =>
    match c (lit "expired_at") with
    | none => []
    | some expStr =>
      match ParseInt expStr with
      | .error _ => []
      | .ok expInt =>
        if (timeUnix expInt).Before now then []
        else
          match c (lit "access_token") with
          | none => []
          | some accessToken => accessToken

/-- The type assertion `v, ok := data[k].(string)`. -/
def stringAt (data : M) (k : GoString) : Option GoString :=
  match index data k with
  | some (.str s) => some s
  | _ => none

/-- `func setAccessTokenToCache(key string, data map[string]any) (string, error)`
with `now` the value of `time.Now().UTC()`: the returned pair and the cache
after the call. -/
def setAccessTokenToCache (cache : Cache) (now : Time) (key : GoString) (data : M) :
    (GoString × Option Error) × Cache :=
  let accessToken? :=
    match stringAt data (lit "access_token") with
    | some t => some t
    | none => stringAt data (lit "accessToken")
  match accessToken? with
  | none => (([], some .accessTokenUndefined), cache)
  | some accessToken =>
    let expStr? :=
      match stringAt data (lit "expires_in") with
      | some e => some e
      | none => stringAt data (lit "expiresIn")
    match expStr? with
    | none => (([], some .expiresInUndefined), cache)
    | some expStr =>
      match ParseInt expStr with
      | .error err => (([], some err), cache)
      | .ok expInt =>
        let expAtInt := (now.Add (secondsToDuration expInt)).Unix
        let expAtStr := FormatInt expAtInt
        ((accessToken, none),
          fun k => if k = key then some (cacheRecord accessToken expAtStr) else cache k)

/-! ## The outside world -/

/-- The arguments of one call of `makeRequest`. -/
structure Request where
  uri : GoString
  bodyMap : M
  headers : M

/-- The request `makeRequest` gives to the HTTP client: the serialized body and
the string-valued headers. -/
structure WireRequest where
  uri : GoString
  body : GoString
  header : GoString → Option GoString

/-- What a run did to the outside world. -/
inductive Event where
  /-- a call of `makeRequest` -/
  | request (r : Request)
  /-- a call of `BriMpmDynamic.getSignature` on a message -/
  | sign (message : GoString)

/-- The library calls the package makes.  Calls that depend on the state of the
outside world (clock, network, file system, random source) take the number of
such calls made before them. -/
structure Env where
  /-- `time.Now()` -/
  now : Nat → Time
  /-- `base64.StdEncoding.EncodeToString` -/
  base64 : GoString → GoString
  /-- `hex.EncodeToString` -/
  hexEncode : GoString → GoString
  /-- HMAC-SHA512 of a message under a key -/
  hmacSha512 : GoString → GoString → GoString
  /-- SHA-256 digest -/
  sha256 : GoString → GoString
  /-- `json.Marshal` of a map -/
  marshal : M → Except Error GoString
  /-- `http.NewRequest("POST", uri, body)`: the error, if the URI is rejected -/
  newRequest : GoString → Option Error
  /-- `client.Do(req)`: the response body or the transport error -/
  send : Nat → WireRequest → Except Error GoString
  /-- `json.NewDecoder(res.Body).Decode(&rd.Data)` on the nil `rd.Data`: the map
  left in `rd.Data` and the returned error -/
  decode : GoString → M × Option Error
  /-- `os.ReadFile` -/
  readFile : Nat → GoString → Except Error GoString
  /-- `pem.Decode`: the bytes of the block, `none` for the nil block -/
  pemDecode : GoString → Option GoString
  /-- `x509.ParsePKCS1PrivateKey` -/
  parsePKCS1PrivateKey : GoString → Except Error GoString
  /-- `rsa.SignPKCS1v15(rand.Reader, pk, crypto.SHA256, digest)` -/
  signPKCS1v15 : Nat → GoString → GoString → GoString × Option Error
  /-- `time.LoadLocation` -/
  loadLocation : GoString → Except Error GoString
  /-- `now.Format(time.RFC3339)`, in the given location if any -/
  formatRFC3339 : Time → Option GoString → GoString
  /-- `mathrand.Intn(n)` -/
  intn : Nat → Nat → Nat

/-- The state a run threads: the package variable `cache`, the number of calls
made so far to the outside world, and the events so far, newest first. -/
structure World where
  cache : Cache
  step : Nat
  trace : List Event

/-- One more call to the outside world was made. -/
def World.tick (w : World) : World := ⟨w.cache, w.step + 1, w.trace⟩

/-- An event happened. -/
def World.log (w : World) (e : Event) : World := ⟨w.cache, w.step, e :: w.trace⟩

/-- The calls of `makeRequest` so far, newest first. -/
def World.requests (w : World) : List Request :=
  w.trace.filterMap (fun e => match e with | .request r => some r | .sign _ => none)

/-- `type responseData struct { Data M; Err error }`. -/
structure responseData where
  Data : M
  Err : Option Error

/-- `func makeRequest(uri string, bodyMap, headers M) responseData`.  The
goroutine sends exactly one value on the channel and the caller receives it, so
the call is the body of the goroutine.  Only string-valued headers are set. -/
def makeRequest (env : Env) (w : World) (uri : GoString) (bodyMap headers : M) :
    responseData × World :=
  let w := w.log (.request ⟨uri, bodyMap, headers⟩)
  match env.marshal bodyMap with
  | .error err => (⟨none, some err⟩, w)
  | .ok bodyBytes =>
    match env.newRequest uri with
    | some err => (⟨none, some err⟩, w)
    | none =>
      match env.send w.step ⟨uri, bodyBytes, stringAt headers⟩ with
      | .error err => (⟨none, some err⟩, w.tick)
      | .ok resBody =>
        match env.decode resBody with
        | (data, some err) =>
          if err ≠ .EOF then (⟨data, some err⟩, w.tick) else (⟨data, none⟩, w.tick)
        | (data, none) => (⟨data, none⟩, w.tick)

/-- `type IRequest interface { Payload() M }`: a request is the map its
`Payload` method returns. -/
structure IRequest where
  Payload : M

/-! ## `bni.go` -/

/-- `type Bni struct`. -/
structure Bni where
  Host : GoString
  Username : GoString
  Password : GoString
  ClientID : GoString
  ClientSecret : GoString
  HmacKey : GoString
  MerchantID : GoString
  TerminalID : GoString

/-- `func (bni Bni) getBasicToken() string`. -/
def Bni.getBasicToken (env : Env) (bni : Bni) : GoString :=
  lit "Basic " ++ env.base64 (bni.ClientID ++ lit ":" ++ bni.ClientSecret)

/-- `func (bni Bni) getSignature(s string) string`. -/
def Bni.getSignature (env : Env) (bni : Bni) (s : GoString) : GoString :=
  env.hexEncode (env.hmacSha512 bni.HmacKey s)

/-- `func (bni Bni) getAccessToken() (string, error)`.  The clock reading of
the cache lookup is taken at every call. -/
def Bni.getAccessToken (env : Env) (bni : Bni) (w : World) :
    (GoString × Option Error) × World :=
  let cacheKey := lit "bni"
  let accessToken := getAccessTokenFromCache w.cache (env.now w.step) cacheKey
  let w1 := w.tick
  if accessToken ≠ [] then ((accessToken, none), w1)
  else
    let uri := bni.Host ++ lit "/" ++ lit "auth/get-token"
    let bodyMap := mapOf [(lit "username", .str bni.Username),
      (lit "password", .str bni.Password), (lit "grant_type", .str (lit "password"))]
    let headers := mapOf [(lit "Content-Type", .str (lit "application/json")),
      (lit "Authorization", .str (bni.getBasicToken env))]
    match makeRequest env w1 uri bodyMap headers with
    | (data, w2) =>
      match data.Err with
      | some err => (([], some err), w2)
      | none =>
        if (index data.Data (lit "access_token")).isNone then
          (([], some (.bni (GetValue data.Data (lit "code"))
            (GetValue data.Data (lit "error")))), w2)
        else
          match setAccessTokenToCache w2.cache (env.now w2.step) cacheKey data.Data with
          | (r, cache) => (r, ⟨cache, w2.step + 1, w2.trace⟩)

/-- `func (bni Bni) GenerateQRCode(r IRequest) (M, error)`. -/
def Bni.GenerateQRCode (env : Env) (bni : Bni) (w : World) (r : IRequest) :
    Outcome ((M × Option Error) × World) :=
  match bni.getAccessToken env w with
  | ((_, some err), w1) => .ret ((none, some err), w1)
  | ((accessToken, none), w1) =>
    let bodyMap := r.Payload
    let id := GetValue bodyMap (lit "request_id")
    let exp := GetValue bodyMap (lit "qr_expired")
    let message := id ++ lit ":" ++ bni.MerchantID ++ lit ":" ++ exp
    let headers := mapOf [(lit "Content-Type", .str (lit "application/json")),
      (lit "Authorization", .str (lit "Bearer " ++ accessToken)),
      (lit "X-Signature", .str (bni.getSignature env message))]
    let uri := bni.Host ++ lit "/" ++ lit "qr/generate-qr"
    match makeRequest env w1 uri bodyMap headers with
    | (data, w2) => .ret ((data.Data, data.Err), w2)

/-- `func (bni Bni) CheckStatusTransaction(r IRequest) (M, error)`. -/
def Bni.CheckStatusTransaction (env : Env) (bni : Bni) (w : World) (r : IRequest) :
    Outcome ((M × Option Error) × World) :=
  match bni.getAccessToken env w with
  | ((_, some err), w1) => .ret ((none, some err), w1)
  | ((accessToken, none), w1) =>
    match SetValueIfEmpty r.Payload (lit "mid") (.str bni.MerchantID) with
    | .panic => .panic
    | .ret bodyMap =>
      let requestId := GetValue bodyMap (lit "request_id")
      let billNumber := GetValue bodyMap (lit "bill_number")
      let message := requestId ++ lit ":" ++ bni.MerchantID ++ lit ":" ++ billNumber
      let headers := mapOf [(lit "Content-Type", .str (lit "application/json")),
        (lit "Authorization", .str (lit "Bearer " ++ accessToken)),
        (lit "X-Signature", .str (bni.getSignature env message))]
      let uri := bni.Host ++ lit "/" ++ lit "check-status/inquiry"
      match makeRequest env w1 uri bodyMap headers with
      | (data, w2) => .ret ((data.Data, data.Err), w2)

/-- `type BniGenerateQRCodeRequest struct`. -/
structure BniGenerateQRCodeRequest where
  RequestID : GoString
  Amount : GoString
  QRExpired : GoString

/-- `func (r BniGenerateQRCodeRequest) Payload() M`. -/
def BniGenerateQRCodeRequest.Payload (r : BniGenerateQRCodeRequest) : M :=
  mapOf [(lit "request_id", .str r.RequestID), (lit "amount", .str r.Amount),
    (lit "qr_expired", .str r.QRExpired)]

/-- `type BniCheckStatusTransactionRequest struct`. -/
structure BniCheckStatusTransactionRequest where
  RequestID : GoString
  BillNumber : GoString

/-- `func (r BniCheckStatusTransactionRequest) Payload() M`. -/
def BniCheckStatusTransactionRequest.Payload (r : BniCheckStatusTransactionRequest) : M :=
  mapOf [(lit "request_id", .str r.RequestID), (lit "bill_number", .str r.BillNumber)]

/-! ## `goqris.go`: `SetValueIfEmptyWithFunc` -/

/-- `func (m M) SetValueIfEmptyWithFunc(k string, f func(M) M)`.  When `m[k]`
holds a map of type `M`, `f` works on that very map, so its writes show under
`m[k]`; otherwise `m[k]` is assigned the result of `f` on a fresh map. -/
def SetValueIfEmptyWithFunc (m : M) (k : GoString) (f : M → Outcome M) : Outcome M :=
  match index m k with
  | some (.obj v) =>
    match f v with
    | .panic => .panic
    | .ret v2 => assign m k (.obj v2)
  | _ =>
    match f (mapOf []) with
    | .panic => .panic
    | .ret v2 => assign m k (.obj v2)

/-! ## `bri.go` -/

/-- `type BriMpmDynamic struct`. -/
structure BriMpmDynamic where
  Host : GoString
  ClientID : GoString
  ClientSecret : GoString
  PartnerID : GoString
  PrivateKey : GoString
  MerchantID : GoString
  TerminalID : GoString
  ChannelID : GoString
  Timezone : GoString

/-- `func (mpm BriMpmDynamic) getPrivateKey() (*rsa.PrivateKey, error)`; a nil
PEM block makes `block.Bytes` panic. -/
def BriMpmDynamic.getPrivateKey (env : Env) (mpm : BriMpmDynamic) (w : World) :
    Outcome (Except Error GoString × World) :=
  match env.readFile w.step mpm.PrivateKey with
  | .error err => .ret (.error err, w.tick)
  | .ok c =>
    match env.pemDecode c with
    | none => .panic
    | some bytes => .ret (env.parsePKCS1PrivateKey bytes, w.tick)

/-- `func (mpm BriMpmDynamic) hmac(s string) string`. -/
def BriMpmDynamic.hmac (env : Env) (mpm : BriMpmDynamic) (s : GoString) : GoString :=
  env.hexEncode (env.hmacSha512 mpm.ClientSecret s)

/-- `func (mpm BriMpmDynamic) getSignature(s string) (string, error)`. -/
def BriMpmDynamic.getSignature (env : Env) (mpm : BriMpmDynamic) (w : World)
    (s : GoString) : Outcome ((GoString × Option Error) × World) :=
  let w0 := w.log (.sign s)
  let bs := env.sha256 s
  match mpm.getPrivateKey env w0 with
  | .panic => .panic
  | .ret (.error err, w1) => .ret (([], some err), w1)
  | .ret (.ok pk, w1) =>
    match env.signPKCS1v15 w1.step pk bs with
    | (sign, err) => .ret ((env.base64 sign, err), w1.tick)

/-- `func (mpm BriMpmDynamic) getExternalId() string`; `Intn(n)` lies in
`[0, n)`. -/
def BriMpmDynamic.getExternalId (env : Env) (w : World) : GoString × World :=
  let max : Nat := 99999999999
  let min : Nat := 9999999999
  let r := env.intn w.step (max - min) % (max - min) + min
  (FormatInt (r : Int), w.tick)

/-- `func (mpm BriMpmDynamic) getTimestamp() (string, error)`. -/
def BriMpmDynamic.getTimestamp (env : Env) (mpm : BriMpmDynamic) (w : World) :
    (GoString × Option Error) × World :=
  let now := env.now w.step
  if mpm.Timezone ≠ [] then
    match env.loadLocation mpm.Timezone with
    | .error err => (([], some err), w.tick)
    | .ok tz => ((env.formatRFC3339 now (some tz), none), w.tick)
  else ((env.formatRFC3339 now none, none), w.tick)

/-- `func (mpm BriMpmDynamic) getAccessToken() (string, error)`.  The clock
reading of the cache lookup is taken at every call. -/
def BriMpmDynamic.getAccessToken (env : Env) (mpm : BriMpmDynamic) (w : World) :
    Outcome ((GoString × Option Error) × World) :=
  let cacheKey := lit "briMpm"
  let accessToken := getAccessTokenFromCache w.cache (env.now w.step) cacheKey
  let w1 := w.tick
  if accessToken ≠ [] then .ret ((accessToken, none), w1)
  else
    let uri := mpm.Host ++ lit "/" ++ lit "snap/v1.0/access-token/b2b"
    let bodyMap := mapOf [(lit "grantType", .str (lit "client_credentials"))]
    match mpm.getTimestamp env w1 with
    | ((_, some err), w2) => .ret (([], some err), w2)
    | ((timestamp, none), w2) =>
      let message := mpm.ClientID ++ lit "|" ++ timestamp
      match mpm.getSignature env w2 message with
      | .panic => .panic
      | .ret ((_, some err), w3) => .ret (([], some err), w3)
      | .ret ((signature, none), w3) =>
        let headers := mapOf [(lit "Content-Type", .str (lit "application/json")),
          (lit "X-CLIENT-KEY", .str mpm.ClientID), (lit "X-TIMESTAMP", .str timestamp),
          (lit "X-SIGNATURE", .str signature)]
        match makeRequest env w3 uri bodyMap headers with
        | (data, w4) =>
          match data.Err with
          | some err => .ret (([], some err), w4)
          | none =>
            if GetValue data.Data (lit "accessToken") = [] then
              .ret (([], some (.briMpmDynamic (GetValue data.Data (lit "responseCode"))
                (GetValue data.Data (lit "responseMessage")))), w4)
            else
              match setAccessTokenToCache w4.cache (env.now w4.step) cacheKey data.Data with
              | (r, cache) => .ret (r, ⟨cache, w4.step + 1, w4.trace⟩)

/-- The seven headers of a QR or status request of `BriMpmDynamic`. -/
def BriMpmDynamic.headers (env : Env) (mpm : BriMpmDynamic)
    (accessToken timestamp message externalId : GoString) : M :=
  mapOf [(lit "Content-Type", .str (lit "application/json")),
    (lit "Authorization", .str (lit "Bearer " ++ accessToken)),
    (lit "X-TIMESTAMP", .str timestamp),
    (lit "X-SIGNATURE", .str (mpm.hmac env message)),
    (lit "X-PARTNER-ID", .str mpm.PartnerID),
    (lit "X-EXTERNAL-ID", .str externalId),
    (lit "CHANNEL-ID", .str mpm.ChannelID)]

/-- The part of `GenerateQRCode` and `CheckStatusTransaction` of
`BriMpmDynamic` after the body map is complete: hash the serialized body (a
serialization error is ignored, leaving no bytes), take the timestamp, sign and
call `makeRequest`. -/
def BriMpmDynamic.signAndSend (env : Env) (mpm : BriMpmDynamic) (w : World)
    (accessToken endpoint : GoString) (bodyMap : M) : (M × Option Error) × World :=
  let bodyBytes :=
    match env.marshal bodyMap with
    | .ok b => b
    | .error _ => []
  let bodyHex := env.hexEncode (env.sha256 bodyBytes)
  match mpm.getTimestamp env w with
  | ((_, some err), w1) => ((none, some err), w1)
  | ((timestamp, none), w1) =>
    let message := lit "POST:/" ++ endpoint ++ lit ":" ++ accessToken ++ lit ":" ++
      bodyHex ++ lit ":" ++ timestamp
    match BriMpmDynamic.getExternalId env w1 with
    | (externalId, w2) =>
      let headers := mpm.headers env accessToken timestamp message externalId
      let uri := mpm.Host ++ lit "/" ++ endpoint
      match makeRequest env w2 uri bodyMap headers with
      | (data, w3) => ((data.Data, data.Err), w3)

/-- `func (mpm BriMpmDynamic) GenerateQRCode(r IRequest) (M, error)`. -/
def BriMpmDynamic.GenerateQRCode (env : Env) (mpm : BriMpmDynamic) (w : World)
    (r : IRequest) : Outcome ((M × Option Error) × World) :=
  match mpm.getAccessToken env w with
  | .panic => .panic
  | .ret ((_, some err), w1) => .ret ((none, some err), w1)
  | .ret ((accessToken, none), w1) =>
    match SetValueIfEmpty r.Payload (lit "merchantId") (.str mpm.MerchantID) with
    | .panic => .panic
    | .ret b1 =>
      match SetValueIfEmpty b1 (lit "terminalId") (.str mpm.TerminalID) with
      | .panic => .panic
      | .ret bodyMap =>
        .ret (mpm.signAndSend env w1 accessToken
          (lit "v1.0/qr-dynamic-mpm/qr-mpm-generate-qr") bodyMap)

/-- `func (mpm BriMpmDynamic) CheckStatusTransaction(r IRequest) (M, error)`. -/
def BriMpmDynamic.CheckStatusTransaction (env : Env) (mpm : BriMpmDynamic) (w : World)
    (r : IRequest) : Outcome ((M × Option Error) × World) :=
  match mpm.getAccessToken env w with
  | .panic => .panic
  | .ret ((_, some err), w1) => .ret ((none, some err), w1)
  | .ret ((accessToken, none), w1) =>
    match SetValueIfEmptyWithFunc r.Payload (lit "additionalInfo")
        (fun m => SetValueIfEmpty m (lit "terminalId") (.str mpm.TerminalID)) with
    | .panic => .panic
    | .ret bodyMap =>
      .ret (mpm.signAndSend env w1 accessToken
        (lit "v1.0/qr-dynamic-mpm/qr-mpm-query") bodyMap)

/-- `type BriMpmDynamicGenerateQRCodeRequest struct`. -/
structure BriMpmDynamicGenerateQRCodeRequest where
  PartnerReferenceNo : GoString
  Amount : GoString
  Currency : GoString

/-- `func (r BriMpmDynamicGenerateQRCodeRequest) Payload() M`. -/
def BriMpmDynamicGenerateQRCodeRequest.Payload (r : BriMpmDynamicGenerateQRCodeRequest) : M :=
  mapOf [(lit "partnerReferenceNo", .str r.PartnerReferenceNo),
    (lit "amount", .obj (mapOf [(lit "value", .str r.Amount),
      (lit "currency", .str r.Currency)]))]

/-- `type BriMpmDynamicCheckStatusTransactionRequest struct`. -/
structure BriMpmDynamicCheckStatusTransactionRequest where
  OriginalReferenceNo : GoString
  ServiceCode : GoString

/-- `func (r BriMpmDynamicCheckStatusTransactionRequest) Payload() M`. -/
def BriMpmDynamicCheckStatusTransactionRequest.Payload
    (r : BriMpmDynamicCheckStatusTransactionRequest) : M :=
  mapOf [(lit "originalReferenceNo", .str r.OriginalReferenceNo),
    (lit "serviceCode", .str r.ServiceCode)]

/-! ## The `IQris` interface -/

/-- An implementation of `IQris`: one of the two provider clients. -/
inductive Provider where
  | bni (c : Bni)
  | briMpmDynamic (c : BriMpmDynamic)

/-- The two operations of `IQris`. -/
inductive Operation where
  | GenerateQRCode
  | CheckStatusTransaction

/-- Token acquisition of a provider. -/
def Provider.getAccessToken (env : Env) (p : Provider) (w : World) :
    Outcome ((GoString × Option Error) × World) :=
  match p with
  | .bni c => .ret (c.getAccessToken env w)
  | .briMpmDynamic c => c.getAccessToken env w

/-- A call of an `IQris` method on a provider. -/
def Provider.call (env : Env) (p : Provider) (op : Operation) (w : World) (r : IRequest) :
    Outcome ((M × Option Error) × World) :=
  match p, op with
  | .bni c, .GenerateQRCode => c.GenerateQRCode env w r
  | .bni c, .CheckStatusTransaction => c.CheckStatusTransaction env w r
  | .briMpmDynamic c, .GenerateQRCode => c.GenerateQRCode env w r
  | .briMpmDynamic c, .CheckStatusTransaction => c.CheckStatusTransaction env w r

/-! ## A worked scenario -/

/-- A cache holding for "bni" the record of token "tok" expiring at Unix second
100. -/
def cacheAt100 : Cache :=
  fun k => if k = lit "bni" then some (cacheRecord (lit "tok") (lit "100")) else none

/-- An authentication response with token "tok" and the given TTL string. -/
def tokenResponse (ttl : String) : M :=
  mapOf [(lit "access_token", .str (lit "tok")), (lit "expires_in", .str (lit ttl))]

/-- The clock reading 1700000000 s after the Unix epoch, in UTC. -/
def clock1700 : Time := ⟨1700000000 + unixToInternal, 0⟩

/-- A BNI client whose configured merchant id is "M-001". -/
def exampleBni : Bni where
  Host := lit "https://bni.example"
  Username := lit "user"
  Password := lit "secret"
  ClientID := lit "client"
  ClientSecret := lit "client-secret"
  HmacKey := lit "hmac-key"
  MerchantID := lit "M-001"
  TerminalID := lit "T-001"

/-- A BRI-MPM-Dynamic client whose configured merchant id is "M-002". -/
def exampleBri : BriMpmDynamic where
  Host := lit "https://bri.example"
  ClientID := lit "client"
  ClientSecret := lit "client-secret"
  PartnerID := lit "partner"
  PrivateKey := lit "key.pem"
  MerchantID := lit "M-002"
  TerminalID := lit "T-002"
  ChannelID := lit "channel"
  Timezone := []

/-- A bank that answers the two token endpoints with a token valid for 899
seconds and every other request with the body `answer`; the decoder reports
`io.EOF` on the empty body and leaves the map nil. -/
def exampleEnv (answer : GoString) : Env where
  now := fun _ => clock1700
  base64 := fun s => s
  hexEncode := fun s => s
  hmacSha512 := fun k s => k ++ s
  sha256 := fun s => s
  marshal := fun _ => .ok (lit "body")
  newRequest := fun _ => none
  send := fun _ q =>
    if q.uri = lit "https://bni.example/auth/get-token" then .ok (lit "bni-token")
    else if q.uri = lit "https://bri.example/snap/v1.0/access-token/b2b" then
      .ok (lit "bri-token")
    else .ok answer
  decode := fun b =>
    if b = [] then (none, some .EOF)
    else if b = lit "bni-token" then
      (mapOf [(lit "access_token", .str (lit "tok")), (lit "expires_in", .str (lit "899"))],
        none)
    else if b = lit "bri-token" then
      (mapOf [(lit "accessToken", .str (lit "tok")), (lit "expiresIn", .str (lit "899"))],
        none)
    else
      (mapOf [(lit "code", .str (lit "00")), (lit "message", .str (lit "success")),
        (lit "bill_number", .str (lit "C000011957"))], none)
  readFile := fun _ _ => .ok (lit "pem")
  pemDecode := fun _ => some (lit "der")
  parsePKCS1PrivateKey := fun _ => .ok (lit "private-key")
  signPKCS1v15 := fun _ _ digest => (digest, none)
  loadLocation := fun z => .ok z
  formatRFC3339 := fun _ _ => lit "2023-11-14T22:13:20Z"
  intn := fun _ _ => 0

/-- The state of a fresh process: empty cache, nothing done yet. -/
def freshWorld : World := ⟨fun _ => none, 0, []⟩

/-- The generate request of the test of the BNI client. -/
def exampleBniRequest : BniGenerateQRCodeRequest where
  RequestID := lit "1700000000123"
  Amount := lit "5000.00"
  QRExpired := lit "2023-11-14T23:13:20"

/-- The generate request of the test of the BRI client. -/
def exampleBriRequest : BriMpmDynamicGenerateQRCodeRequest where
  PartnerReferenceNo := lit "1700000000123"
  Amount := lit "5000.00"
  Currency := lit "IDR"

/-- A generate payload whose caller supplied the merchant id as a number, not a
string. -/
def numericMerchantPayload : M :=
  mapOf [(lit "partnerReferenceNo", .str (lit "1700000000123")),
    (lit "merchantId", .other 7)]

/-- A generate payload whose caller supplied the merchant id "M-777". -/
def ownMerchantPayload : M :=
  mapOf [(lit "partnerReferenceNo", .str (lit "1700000000123")),
    (lit "merchantId", .str (lit "M-777"))]

/-- The string under `k` after a call of `SetValueIfEmpty`, if any. -/
def stringAfter (o : Outcome M) (k : GoString) : Option GoString :=
  match o with
  | .ret m => stringAt m k
  | .panic => none

/-- A BNI client pointed at a host that does not answer with a token. -/
def strayBni : Bni where
  Host := lit "https://stray.example"
  Username := lit "user"
  Password := lit "secret"
  ClientID := lit "client"
  ClientSecret := lit "client-secret"
  HmacKey := lit "hmac-key"
  MerchantID := lit "M-001"
  TerminalID := lit "T-001"

/-- The status request of the test of the BNI client. -/
def exampleBniStatus : BniCheckStatusTransactionRequest where
  RequestID := lit "1700000000"
  BillNumber := lit "C000011957"

/-- The status request of the test of the BRI client. -/
def exampleBriStatus : BriMpmDynamicCheckStatusTransactionRequest where
  OriginalReferenceNo := lit "000008526955"
  ServiceCode := lit "47"

/-- For every call of `makeRequest` of a run, newest first: the URI and the
string the body carries under `k`, if any. -/
def bodiesAt (k : GoString) (o : Outcome ((M × Option Error) × World)) :
    List (GoString × Option GoString) :=
  match o with
  | .ret (_, w) => w.requests.map (fun q => (q.uri, stringAt q.bodyMap k))
  | .panic => []

/-- What a call returned: whether the map is non-nil, and the error; `none`
when the call panicked. -/
def returned (o : Outcome ((M × Option Error) × World)) : Option (Bool × Option Error) :=
  match o with
  | .ret ((data, err), _) => some (data.isSome, err)
  | .panic => none

/-- The pairs a call of `GenerateQRCode` or `CheckStatusTransaction` returns: a
nil map with an error, a non-nil map without error, or what the JSON decoder
made of a response body: a nil map without error when the decoder stored no map
and reported nothing or `io.EOF`, a non-nil map with an error when the decoder
stored a map and reported an error other than `io.EOF`. -/
def GatewayResult (env : Env) (data : M) (err : Option Error) : Prop :=
  (data = none ∧ err ≠ none) ∨ (data ≠ none ∧ err = none) ∨
  ∃ n q body, env.send n q = .ok body ∧ (env.decode body).1 = data ∧
    ((data = none ∧ err = none ∧
        ((env.decode body).2 = none ∨ (env.decode body).2 = some .EOF)) ∨
      (data ≠ none ∧ err ≠ none ∧ err ≠ some .EOF ∧ (env.decode body).2 = err))

/-! ## Decimal integers as the specification words them -/

/-- Every byte is an ASCII digit. -/
def allDigits (s : GoString) : Bool := s.all (fun c => decide (48 ≤ c) && decide (c ≤ 57))

/-- Value of a digit string read in base 10, continuing from `n`. -/
def decimalFrom (n : Nat) (s : GoString) : Nat := s.foldl (fun a c => a * 10 + (c - 48)) n

/-- The integer a string denotes when it is a base-10 signed 64-bit integer: an
optional sign, at least one digit, and a value from `-2^63` to `2^63 - 1`. -/
def decimalInt64 (s : GoString) : Option Int :=
  let neg := decide (s.head? = some 45)
  let body := if s.head? = some 43 ∨ s.head? = some 45 then s.tail else s
  if body ≠ [] ∧ allDigits body = true then
    let v : Int := if neg then -(decimalFrom 0 body : Int) else (decimalFrom 0 body : Int)
    if -9223372036854775808 ≤ v ∧ v ≤ 9223372036854775807 then some v else none
  else none

/-! ## The normalizer as the specification words it -/

/-- The string a response carries under `k`.  A field is absent when the key is
missing, holds a non-string, or holds the empty string: `GetValue` gives the
empty string in all three cases and the package never tells them apart. -/
def field (m : M) (k : GoString) : Option GoString :=
  match index m k with
  | some (.str s) => if s = [] then none else some s
  | _ => none

/-- Specified status code: the string under `code`, or, if absent, the string
under `responseCode` cut to its first 3 bytes when its length is at least 7. -/
def statusCode (m : M) : GoString :=
  match field m (lit "code") with
  | some c => c
  | none =>
    match field m (lit "responseCode") with
    | some rc => if 7 ≤ rc.length then rc.take 3 else rc
    | none => []

/-- Specified status message: `message`, falling back to `responseMessage`. -/
def statusMessage (m : M) : GoString :=
  match field m (lit "message") with
  | some s => s
  | none => (field m (lit "responseMessage")).getD []

/-- Specified payment status code: `payment_status`, falling back to
`latestTransactionStatus`. -/
def paymentCode (m : M) : GoString :=
  match field m (lit "payment_status") with
  | some s => s
  | none => (field m (lit "latestTransactionStatus")).getD []

/-- Specified payment description: `payment_description`, falling back to
`transactionStatusDesc`. -/
def paymentDescription (m : M) : GoString :=
  match field m (lit "payment_description") with
  | some s => s
  | none => (field m (lit "transactionStatusDesc")).getD []

/-- A code of the success set. -/
def IsSuccessCode (c : GoString) : Prop := c = lit "00" ∨ c = lit "200"

/-- A message of the success set. -/
def IsSuccessMessage (s : GoString) : Prop :=
  s = lit "Successful" ∨ s = lit "Successfully" ∨ s = lit "success" ∨
    s = lit "Payment Success"

/-- Specified reference number: `bill_number`, falling back to `referenceNo`,
empty when neither is present. -/
def referenceNumber (m : M) : GoString :=
  match field m (lit "bill_number") with
  | some s => s
  | none => (field m (lit "referenceNo")).getD []

/-- The service code as the specification states it: the two bytes at positions
3 and 4 of `responseCode` when its length is at least 7, empty otherwise. -/
def claimedServiceCode (m : M) : GoString :=
  let rc := GetValue m (lit "responseCode")
  if 7 ≤ rc.length then (rc.drop 3).take 2 else []

/-- The token of an authentication response: the string under `access_token`,
otherwise the string under `accessToken`. -/
def tokenField (data : M) : Option GoString :=
  match stringAt data (lit "access_token") with
  | some t => some t
  | none => stringAt data (lit "accessToken")

/-- The TTL string of an authentication response: the string under
`expires_in`, otherwise the string under `expiresIn`. -/
def ttlField (data : M) : Option GoString :=
  match stringAt data (lit "expires_in") with
  | some t => some t
  | none => stringAt data (lit "expiresIn")

/-- Nanoseconds from the Unix epoch to the instant `t`. -/
def Time.unixNano (t : Time) : Int := (t.ext - unixToInternal) * 1000000000 + t.nsec

/-- The expiry instant written in a cache record, in Unix seconds. -/
def expiresAt (c : GoString → Option GoString) : Option Int :=
  match c (lit "expired_at") with
  | some e => decimalInt64 e
  | none => none

/-- The cache read as the specification states it: the stored token when a
record exists and its expiry is strictly later than `now`, absent (empty)
otherwise. -/
def claimedGet (cache : Cache) (now : Time) (key : GoString) : GoString :=
  match cache key with
  | none => []
  | some c =>
    match expiresAt c, c (lit "access_token") with
    | some e, some t => if now.unixNano < e * 1000000000 then t else []
    | _, _ => []

/-! ## Token acquisition as the specification words it -/

/-- The key under which a provider keeps its token in the cache. -/
def Provider.cacheKey : Provider → GoString
  | .bni _ => lit "bni"
  | .briMpmDynamic _ => lit "briMpm"

/-- The URI of the token request of a provider. -/
def Provider.tokenUri : Provider → GoString
  | .bni c => c.Host ++ lit "/" ++ lit "auth/get-token"
  | .briMpmDynamic c => c.Host ++ lit "/" ++ lit "snap/v1.0/access-token/b2b"

/-- The messages given to `BriMpmDynamic.getSignature` so far, newest first. -/
def World.signs (w : World) : List GoString :=
  w.trace.filterMap (fun e => match e with | .request _ => none | .sign s => some s)

/-- The token request of the BNI client. -/
def Bni.tokenRequest (env : Env) (bni : Bni) : Request where
  uri := bni.Host ++ lit "/" ++ lit "auth/get-token"
  bodyMap := mapOf [(lit "username", .str bni.Username),
    (lit "password", .str bni.Password), (lit "grant_type", .str (lit "password"))]
  headers := mapOf [(lit "Content-Type", .str (lit "application/json")),
    (lit "Authorization", .str (bni.getBasicToken env))]

/-- The token request of the BRI client for a timestamp and its signature. -/
def BriMpmDynamic.tokenRequest (mpm : BriMpmDynamic) (timestamp signature : GoString) :
    Request where
  uri := mpm.Host ++ lit "/" ++ lit "snap/v1.0/access-token/b2b"
  bodyMap := mapOf [(lit "grantType", .str (lit "client_credentials"))]
  headers := mapOf [(lit "Content-Type", .str (lit "application/json")),
    (lit "X-CLIENT-KEY", .str mpm.ClientID), (lit "X-TIMESTAMP", .str timestamp),
    (lit "X-SIGNATURE", .str signature)]

/-- A token response that parses: the transport reported no error, the token and
the TTL string are found (under either naming), and the TTL string is a base-10
signed 64-bit integer. -/
def Parses (data : responseData) (t : GoString) (n : Int) : Prop :=
  data.Err = none ∧ tokenField data.Data = some t ∧
    ∃ ttl, ttlField data.Data = some ttl ∧ decimalInt64 ttl = some n

/-- The cache after a record was stored under a key. -/
def Cache.store (cache : Cache) (key : GoString) (rec : GoString → Option GoString) :
    Cache :=
  fun k => if k = key then some rec else cache k

/-- The record written for token `t` obtained at clock `now` with a TTL of `n`
seconds. -/
def newRecord (now : Time) (t : GoString) (n : Int) : GoString → Option GoString :=
  cacheRecord t (FormatInt (now.Add (secondsToDuration n)).Unix)

/-- What a run of `getAccessToken` did: the returned pair, the URIs of the
requests made and the number of signatures attempted; `none` for a panic. -/
def acquired (o : Outcome ((GoString × Option Error) × World)) :
    Option ((GoString × Option Error) × List GoString × Nat) :=
  match o with
  | .ret (r, w) => some (r, w.requests.map (fun q => q.uri), w.signs.length)
  | .panic => none

/-- The scenario bank on a host whose private-key file cannot be read. -/
def keylessEnv : Env where
  now := (exampleEnv (lit "qr")).now
  base64 := (exampleEnv (lit "qr")).base64
  hexEncode := (exampleEnv (lit "qr")).hexEncode
  hmacSha512 := (exampleEnv (lit "qr")).hmacSha512
  sha256 := (exampleEnv (lit "qr")).sha256
  marshal := (exampleEnv (lit "qr")).marshal
  newRequest := (exampleEnv (lit "qr")).newRequest
  send := (exampleEnv (lit "qr")).send
  decode := (exampleEnv (lit "qr")).decode
  readFile := fun _ _ => .error (.lib 2)
  pemDecode := (exampleEnv (lit "qr")).pemDecode
  parsePKCS1PrivateKey := (exampleEnv (lit "qr")).parsePKCS1PrivateKey
  signPKCS1v15 := (exampleEnv (lit "qr")).signPKCS1v15
  loadLocation := (exampleEnv (lit "qr")).loadLocation
  formatRFC3339 := (exampleEnv (lit "qr")).formatRFC3339
  intn := (exampleEnv (lit "qr")).intn

/-- A process whose cache holds for "bni" the token "tok" expiring at Unix
second 2000000000. -/
def warmWorld : World :=
  ⟨fun k => if k = lit "bni" then some (cacheRecord (lit "tok") (lit "2000000000"))
    else none, 0, []⟩

/-! ## The QR and status requests as the specification words them -/

/-- The URI of the request an operation of a provider makes. -/
def Provider.operationUri : Provider → Operation → GoString
  | .bni c, .GenerateQRCode => c.Host ++ lit "/" ++ lit "qr/generate-qr"
  | .bni c, .CheckStatusTransaction => c.Host ++ lit "/" ++ lit "check-status/inquiry"
  | .briMpmDynamic c, .GenerateQRCode =>
    c.Host ++ lit "/" ++ lit "v1.0/qr-dynamic-mpm/qr-mpm-generate-qr"
  | .briMpmDynamic c, .CheckStatusTransaction =>
    c.Host ++ lit "/" ++ lit "v1.0/qr-dynamic-mpm/qr-mpm-query"

/-- The transport fails with `e` before any response is decoded: the body
cannot be serialized, the request cannot be built, or sending fails. -/
def TransportFails (env : Env) (w0 : World) (q : Request) (e : Error) : Prop :=
  env.marshal q.bodyMap = .error e ∨
  (∃ b, env.marshal q.bodyMap = .ok b ∧ env.newRequest q.uri = some e) ∨
  (∃ b, env.marshal q.bodyMap = .ok b ∧ env.newRequest q.uri = none ∧
    env.send w0.step ⟨q.uri, b, stringAt q.headers⟩ = .error e)

/-- The scenario bank, reachable for tokens only: every other request fails in
the network. -/
def offlineEnv : Env where
  now := (exampleEnv (lit "qr")).now
  base64 := (exampleEnv (lit "qr")).base64
  hexEncode := (exampleEnv (lit "qr")).hexEncode
  hmacSha512 := (exampleEnv (lit "qr")).hmacSha512
  sha256 := (exampleEnv (lit "qr")).sha256
  marshal := (exampleEnv (lit "qr")).marshal
  newRequest := (exampleEnv (lit "qr")).newRequest
  send := fun _ q =>
    if q.uri = lit "https://bni.example/auth/get-token" then .ok (lit "bni-token")
    else if q.uri = lit "https://bri.example/snap/v1.0/access-token/b2b" then
      .ok (lit "bri-token")
    else .error (.lib 3)
  decode := (exampleEnv (lit "qr")).decode
  readFile := (exampleEnv (lit "qr")).readFile
  pemDecode := (exampleEnv (lit "qr")).pemDecode
  parsePKCS1PrivateKey := (exampleEnv (lit "qr")).parsePKCS1PrivateKey
  signPKCS1v15 := (exampleEnv (lit "qr")).signPKCS1v15
  loadLocation := (exampleEnv (lit "qr")).loadLocation
  formatRFC3339 := (exampleEnv (lit "qr")).formatRFC3339
  intn := (exampleEnv (lit "qr")).intn

/-- The scenario bank on a host that knows no time zone. -/
def zonelessEnv : Env where
  now := (exampleEnv (lit "qr")).now
  base64 := (exampleEnv (lit "qr")).base64
  hexEncode := (exampleEnv (lit "qr")).hexEncode
  hmacSha512 := (exampleEnv (lit "qr")).hmacSha512
  sha256 := (exampleEnv (lit "qr")).sha256
  marshal := (exampleEnv (lit "qr")).marshal
  newRequest := (exampleEnv (lit "qr")).newRequest
  send := (exampleEnv (lit "qr")).send
  decode := (exampleEnv (lit "qr")).decode
  readFile := (exampleEnv (lit "qr")).readFile
  pemDecode := (exampleEnv (lit "qr")).pemDecode
  parsePKCS1PrivateKey := (exampleEnv (lit "qr")).parsePKCS1PrivateKey
  signPKCS1v15 := (exampleEnv (lit "qr")).signPKCS1v15
  loadLocation := fun _ => .error (.lib 4)
  formatRFC3339 := (exampleEnv (lit "qr")).formatRFC3339
  intn := (exampleEnv (lit "qr")).intn

/-- The BRI client of the scenario, configured with a time zone. -/
def zonedBri : BriMpmDynamic where
  Host := lit "https://bri.example"
  ClientID := lit "client"
  ClientSecret := lit "client-secret"
  PartnerID := lit "partner"
  PrivateKey := lit "key.pem"
  MerchantID := lit "M-002"
  TerminalID := lit "T-002"
  ChannelID := lit "channel"
  Timezone := lit "Asia/Jakarta"

/-! ## Lemmas on the accessors -/

theorem getValue_eq_field (m : M) (k : GoString) :
    GetValue m k = (field m k).getD [] := by
  unfold GetValue field
  cases h : index m k with
  | none => rfl
  | some v =>
    cases v with
    | str s => by_cases hs : s = [] <;> simp [hs]
    | obj o => rfl
    | other i => rfl

theorem field_eq_none_iff (m : M) (k : GoString) :
    field m k = none ↔ GetValue m k = [] := by
  unfold GetValue field
  cases h : index m k with
  | none => simp
  | some v =>
    cases v with
    | str s => by_cases hs : s = [] <;> simp [hs]
    | obj o => simp
    | other i => simp

theorem field_eq_some (m : M) (k s : GoString) (h : field m k = some s) :
    GetValue m k = s ∧ s ≠ [] := by
  unfold GetValue
  unfold field at h
  cases hi : index m k with
  | none => simp [hi] at h
  | some v =>
    cases v with
    | str t =>
      by_cases ht : t = []
      · simp [hi, ht] at h
      · simp [hi, ht] at h
        subst h
        exact ⟨rfl, ht⟩
    | obj o => simp [hi] at h
    | other i => simp [hi] at h

theorem mem_successCodes (c : GoString) :
    successCodes.contains c = true ↔ IsSuccessCode c := by
  simp [successCodes, IsSuccessCode]

theorem mem_successMessages (s : GoString) :
    successMessages.contains s = true ↔ IsSuccessMessage s := by
  simp [successMessages, IsSuccessMessage]

/-- The code the source computes in `SuccessfulGenerate` is the specified one. -/
theorem generate_code_eq (m : M) :
    (if GetValue m (lit "code") = [] then
        (if (GetValue m (lit "responseCode")).length ≥ 7
          then (GetValue m (lit "responseCode")).take 3
          else GetValue m (lit "responseCode"))
      else GetValue m (lit "code")) = statusCode m := by
  unfold statusCode
  cases hc : field m (lit "code") with
  | some c =>
    obtain ⟨h1, h2⟩ := field_eq_some m _ c hc
    simp [h1, h2]
  | none =>
    have h0 := (field_eq_none_iff m _).1 hc
    cases hr : field m (lit "responseCode") with
    | some rc =>
      obtain ⟨h1, _⟩ := field_eq_some m _ rc hr
      simp [h0, h1]
    | none =>
      have h1 := (field_eq_none_iff m _).1 hr
      simp [h0, h1]

/-- Falling back from `k1` to `k2` through `GetValue` is the specified
fallback. -/
theorem fallback_eq (m : M) (k1 k2 : GoString) :
    (if GetValue m k1 = [] then GetValue m k2 else GetValue m k1) =
      (match field m k1 with
        | some s => s
        | none => (field m k2).getD []) := by
  cases h1 : field m k1 with
  | some s =>
    obtain ⟨h, hne⟩ := field_eq_some m _ s h1
    simp [h, hne]
  | none =>
    have h0 := (field_eq_none_iff m _).1 h1
    simp [h0, getValue_eq_field]

/-! ## Lemmas on `strconv` -/

theorem le_decimalFrom (cs : GoString) : ∀ n, n ≤ decimalFrom n cs := by
  induction cs with
  | nil => intro n; simp [decimalFrom]
  | cons c cs ih =>
    intro n
    have h := ih (n * 10 + (c - 48))
    simp only [decimalFrom, List.foldl_cons] at h ⊢
    omega

theorem decimalFrom_cons (n c : Nat) (cs : GoString) :
    decimalFrom n (c :: cs) = decimalFrom (n * 10 + (c - 48)) cs := rfl

theorem allDigits_cons (c : Nat) (cs : GoString) :
    allDigits (c :: cs) = true ↔ (48 ≤ c ∧ c ≤ 57) ∧ allDigits cs = true := by
  simp [allDigits]

theorem digitVal_lt_ten (c d : Nat) :
    (digitVal c = some d ∧ d < 10) ↔ (48 ≤ c ∧ c ≤ 57) ∧ d = c - 48 := by
  unfold digitVal
  by_cases h : 48 ≤ c ∧ c ≤ 57
  · simp only [h, and_self, if_true, Option.some.injEq, true_and]
    constructor
    · rintro ⟨h1, _⟩; exact h1.symm
    · intro h1; exact ⟨h1.symm, by omega⟩
  · simp only [h, if_false, false_and, iff_false, not_and]
    split_ifs
    · intro h1
      simp only [Option.some.injEq] at h1
      omega
    · intro h1
      cases h1

theorem parseUintLoop_range (cs : GoString) :
    ∀ n, (parseUintLoop cs n).2 = some .ErrRange →
      (parseUintLoop cs n).1 = 18446744073709551615 := by
  induction cs with
  | nil => intro n h; simp [parseUintLoop] at h
  | cons c cs ih =>
    intro n
    rw [parseUintLoop]
    split
    · intro h; simp at h
    · dsimp only
      split_ifs
      all_goals first
        | exact ih _
        | (intro h; first | rfl | (simp at h))

theorem parseUintLoop_ok (cs : GoString) :
    ∀ n, n ≤ 18446744073709551615 →
      ((parseUintLoop cs n).2 = none ↔
        allDigits cs = true ∧ decimalFrom n cs ≤ 18446744073709551615) ∧
      ((parseUintLoop cs n).2 = none → (parseUintLoop cs n).1 = decimalFrom n cs) := by
  induction cs with
  | nil => intro n hn; simp [parseUintLoop, allDigits, decimalFrom, hn]
  | cons c cs ih =>
    intro n hn
    have hmono := le_decimalFrom cs (n * 10 + (c - 48))
    rw [parseUintLoop, decimalFrom_cons, allDigits_cons]
    cases hdv : digitVal c with
    | none =>
      have hd : ¬ (48 ≤ c ∧ c ≤ 57) := by
        intro hd
        have := (digitVal_lt_ten c (c - 48)).2 ⟨hd, rfl⟩
        rw [hdv] at this
        cases this.1
      simp [hd]
    | some d =>
      by_cases hd10 : d ≥ 10
      · have hd : ¬ (48 ≤ c ∧ c ≤ 57) := by
          intro hd
          have := (digitVal_lt_ten c (c - 48)).2 ⟨hd, rfl⟩
          rw [hdv] at this
          have h1 := this.1
          simp only [Option.some.injEq] at h1
          omega
        simp [hd, hd10]
      · have hcd := (digitVal_lt_ten c d).1 ⟨hdv, by omega⟩
        obtain ⟨hd, hdeq⟩ := hcd
        subst hdeq
        simp only [hd10, hd, if_false, and_self, true_and]
        by_cases hc : n ≥ 1844674407370955162
        · simp only [hc, if_true]
          constructor
          · constructor
            · intro h; simp at h
            · intro h; omega
          · intro h; simp at h
        · simp only [hc, if_false]
          have h10 : n * 10 % 18446744073709551616 = n * 10 := Nat.mod_eq_of_lt (by omega)
          rw [h10]
          by_cases hov : n * 10 + (c - 48) ≥ 18446744073709551616
          · have hlt : (n * 10 + (c - 48)) % 18446744073709551616 < n * 10 := by omega
            simp only [hlt, true_or, if_true]
            constructor
            · constructor
              · intro h; simp at h
              · intro h; omega
            · intro h; simp at h
          · have h1 : (n * 10 + (c - 48)) % 18446744073709551616 = n * 10 + (c - 48) :=
              Nat.mod_eq_of_lt (by omega)
            rw [h1]
            have hno : ¬ (n * 10 + (c - 48) < n * 10 ∨
                n * 10 + (c - 48) > 18446744073709551615) := by omega
            simp only [hno, if_false]
            exact ih (n * 10 + (c - 48)) (by omega)

theorem parseIntCheck_ok_iff (s0 : GoString) (neg : Bool) (body : GoString) (v : Int) :
    parseIntCheck s0 neg (ParseUint body) = .ok v ↔
      body ≠ [] ∧ allDigits body = true ∧
        (if neg then -(decimalFrom 0 body : Int) else (decimalFrom 0 body : Int)) = v ∧
        -9223372036854775808 ≤ v ∧ v ≤ 9223372036854775807 := by
  unfold ParseUint
  by_cases hb : body = []
  · simp [hb, parseIntCheck]
  · simp only [hb, if_false, ne_eq, not_false_eq_true, true_and]
    obtain ⟨hB, hC⟩ := parseUintLoop_ok body 0 (by omega)
    have hR := parseUintLoop_range body 0
    rcases h : parseUintLoop body 0 with ⟨un, err⟩
    rw [h] at hB hC hR
    simp only at hB hC hR
    cases err with
    | none =>
      have hun := hC rfl
      have hall := hB.1 rfl
      subst hun
      cases neg
      · simp only [parseIntCheck, wrap64, hall.1, true_and]
        simp only [Bool.false_eq_true, if_false, false_and, true_and, reduceCtorEq]
        split_ifs
        · simp only [reduceCtorEq, false_iff]; omega
        · simp only [Except.ok.injEq]; omega
      · simp only [parseIntCheck, wrap64, hall.1, true_and]
        simp only [if_true, false_and, true_and, reduceCtorEq, if_false]
        split_ifs
        · simp only [reduceCtorEq, false_iff]; omega
        · simp only [Except.ok.injEq]; omega
    | some k =>
      have hnot : ¬ (allDigits body = true ∧ decimalFrom 0 body ≤ 18446744073709551615) := by
        intro hh
        have := hB.2 hh
        simp at this
      cases k with
      | ErrSyntax =>
        simp only [parseIntCheck]
        constructor
        · intro h; simp at h
        · rintro ⟨h1, h2, h3, h4⟩
          exfalso; apply hnot; refine ⟨h1, ?_⟩
          cases neg <;> simp at h2 <;> omega
      | ErrRange =>
        have hun := hR rfl
        subst hun
        constructor
        · intro h; cases neg <;> simp [parseIntCheck] at h
        · rintro ⟨h1, h2, h3, h4⟩
          exfalso; apply hnot; refine ⟨h1, ?_⟩
          cases neg <;> simp at h2 <;> omega

theorem parseInt_ok_iff (s : GoString) (v : Int) :
    ParseInt s = .ok v ↔ decimalInt64 s = some v := by
  cases s with
  | nil => simp [ParseInt, decimalInt64]
  | cons c rest =>
    unfold ParseInt
    rw [parseIntCheck_ok_iff]
    unfold decimalInt64
    by_cases h43 : c = 43
    · subst h43
      simp
      constructor
      · rintro ⟨h1, h2, h3, h4, h5⟩
        exact ⟨⟨h1, h2⟩, ⟨by omega, by omega⟩, h3⟩
      · rintro ⟨⟨h1, h2⟩, ⟨h3, h4⟩, h5⟩
        exact ⟨h1, h2, h5, by omega, by omega⟩
    · by_cases h45 : c = 45
      · subst h45
        simp
        constructor
        · rintro ⟨h1, h2, h3, h4, h5⟩
          exact ⟨⟨h1, h2⟩, ⟨by omega, by omega⟩, h3⟩
        · rintro ⟨⟨h1, h2⟩, ⟨h3, h4⟩, h5⟩
          exact ⟨h1, h2, h5, by omega, by omega⟩
      · simp [h43, h45]
        intro _
        constructor
        · rintro ⟨h3, h4, h5⟩
          exact ⟨⟨by omega, by omega⟩, h3⟩
        · rintro ⟨⟨h3, h4⟩, h5⟩
          exact ⟨h5, by omega, by omega⟩

/-! ## Response normalizer -/

/-- C1: for every response map `m`, `SuccessfulGenerate m` is true if and only
if the normalized status code (`code`, or when absent `responseCode` cut to its
first 3 bytes when it has at least 7) is "00" or "200" and the normalized status
message (`message`, falling back to `responseMessage`) is one of "Successful",
"Successfully", "success", "Payment Success".  A field is absent when the map
holds no non-empty string under it.  It is true for
`{"code":"00","message":"success"}` and for
`{"responseCode":"2004700","responseMessage":"Successful"}` and false for
`{"code":"00","message":"failed"}`. -/
theorem successfulGenerate_iff :
    (∀ m : M, SuccessfulGenerate m = true ↔
      IsSuccessCode (statusCode m) ∧ IsSuccessMessage (statusMessage m)) ∧
    SuccessfulGenerate (mapOf [(lit "code", .str (lit "00")),
      (lit "message", .str (lit "success"))]) = true ∧
    SuccessfulGenerate (mapOf [(lit "responseCode", .str (lit "2004700")),
      (lit "responseMessage", .str (lit "Successful"))]) = true ∧
    SuccessfulGenerate (mapOf [(lit "code", .str (lit "00")),
      (lit "message", .str (lit "failed"))]) = false := by
  refine ⟨fun m => ?_, by decide, by decide, by decide⟩
  unfold SuccessfulGenerate
  simp only [generate_code_eq, fallback_eq m (lit "message") (lit "responseMessage"),
    Bool.and_eq_true, mem_successCodes, mem_successMessages]
  rfl

/-- C2: for every response map `m`, `SuccessfulPaid m` is true if and only if
the payment status code (`payment_status`, falling back to
`latestTransactionStatus`) is "00" or "200" and the payment description
(`payment_description`, falling back to `transactionStatusDesc`) is one of the
four success messages; a map where only the code matches, or only the
description matches, gives false.  It is true for
`{"payment_status":"00","payment_description":"Payment Success"}`. -/
theorem successfulPaid_iff :
    (∀ m : M, SuccessfulPaid m = true ↔
      IsSuccessCode (paymentCode m) ∧ IsSuccessMessage (paymentDescription m)) ∧
    (∀ m : M, ¬ (IsSuccessCode (paymentCode m) ∧ IsSuccessMessage (paymentDescription m)) ↔
      SuccessfulPaid m = false) ∧
    SuccessfulPaid (mapOf [(lit "payment_status", .str (lit "00")),
      (lit "payment_description", .str (lit "Payment Success"))]) = true ∧
    SuccessfulPaid (mapOf [(lit "payment_status", .str (lit "00")),
      (lit "payment_description", .str (lit "Pending"))]) = false ∧
    SuccessfulPaid (mapOf [(lit "payment_status", .str (lit "01")),
      (lit "payment_description", .str (lit "Payment Success"))]) = false := by
  have key : ∀ m : M, SuccessfulPaid m = true ↔
      IsSuccessCode (paymentCode m) ∧ IsSuccessMessage (paymentDescription m) := by
    intro m
    unfold SuccessfulPaid
    simp only [fallback_eq m (lit "payment_status") (lit "latestTransactionStatus"),
      fallback_eq m (lit "payment_description") (lit "transactionStatusDesc"),
      Bool.and_eq_true, mem_successCodes, mem_successMessages]
    rfl
  refine ⟨key, fun m => ?_, by decide, by decide, by decide⟩
  rw [← key m]
  cases SuccessfulPaid m <;> simp

/-- C7: for every response map `m`, `RefNo m` is the string under `bill_number`
when one is present, otherwise the string under `referenceNo`, and the empty
string when neither is present; for
`{"code":"00","message":"success","bill_number":"C000011957"}` it is
"C000011957". -/
theorem refNo_eq :
    (∀ m : M, RefNo m = referenceNumber m) ∧
    (∀ m : M, field m (lit "bill_number") = none ∧ field m (lit "referenceNo") = none ↔
      RefNo m = []) ∧
    RefNo (mapOf [(lit "code", .str (lit "00")), (lit "message", .str (lit "success")),
      (lit "bill_number", .str (lit "C000011957"))]) = lit "C000011957" := by
  have key : ∀ m : M, RefNo m = referenceNumber m := by
    intro m
    unfold RefNo referenceNumber
    simp only [fallback_eq m (lit "bill_number") (lit "referenceNo")]
  refine ⟨key, fun m => ?_, by decide⟩
  rw [key m]
  unfold referenceNumber
  cases h1 : field m (lit "bill_number") with
  | some s =>
    have := (field_eq_some m _ s h1).2
    simp [this]
  | none =>
    cases h2 : field m (lit "referenceNo") with
    | some r =>
      have := (field_eq_some m _ r h2).2
      simp [this]
    | none => simp

/-- C6 (as stated, refuted): for `{"responseCode":"200"}` the specification
promises the empty string, while `ServiceCode` returns "200". -/
theorem serviceCode_short_not_empty :
    claimedServiceCode (mapOf [(lit "responseCode", .str (lit "200"))]) = [] ∧
    ServiceCode (mapOf [(lit "responseCode", .str (lit "200"))]) = lit "200" ∧
    ServiceCode (mapOf [(lit "responseCode", .str (lit "200"))]) ≠
      claimedServiceCode (mapOf [(lit "responseCode", .str (lit "200"))]) := by
  refine ⟨by decide, by decide, by decide⟩

/-- C6 (amended): for every response map `m` with `rc` the string under
`responseCode` (empty when there is none), `ServiceCode m` is the two bytes at
positions 3 and 4 of `rc` when `rc` has at least 7 bytes, and is `rc` itself,
unchanged, when `rc` is shorter; so it is empty only when `rc` is empty. -/
theorem serviceCode_spec (m : M) :
    (7 ≤ (GetValue m (lit "responseCode")).length →
      (ServiceCode m).length = 2 ∧
      ∀ i, i < 2 → (ServiceCode m)[i]? = (GetValue m (lit "responseCode"))[3 + i]?) ∧
    ((GetValue m (lit "responseCode")).length < 7 →
      ServiceCode m = GetValue m (lit "responseCode")) := by
  unfold ServiceCode
  constructor
  · intro h
    simp only [ge_iff_le, h, if_true]
    constructor
    · simp only [List.length_take, List.length_drop]
      omega
    · intro i hi
      rw [List.getElem?_take_of_lt hi, List.getElem?_drop]
  · intro h
    have h2 : ¬ (7 ≤ (GetValue m (lit "responseCode")).length) := by omega
    simp only [ge_iff_le, h2, if_false]

/-- C6 (amended), at `{"responseCode":"2005100"}` and `{"responseCode":"200"}`:
the results are "51" and "200". -/
theorem serviceCode_spec_witness :
    ServiceCode (mapOf [(lit "responseCode", .str (lit "2005100"))]) = lit "51" ∧
    ServiceCode (mapOf [(lit "responseCode", .str (lit "200"))]) = lit "200" ∧
    (ServiceCode (mapOf [(lit "responseCode", .str (lit "2005100"))])).length = 2 := by
  refine ⟨by decide, ?_, ?_⟩
  · exact (serviceCode_spec (mapOf [(lit "responseCode", .str (lit "200"))])).2 (by decide)
  · exact ((serviceCode_spec (mapOf [(lit "responseCode", .str (lit "2005100"))])).1
      (by decide)).1

/-! ## Token cache -/

theorem parseInt_of_decimalInt64_none (s : GoString) (h : decimalInt64 s = none) :
    ∃ e, ParseInt s = .error e := by
  cases hp : ParseInt s with
  | error e => exact ⟨e, rfl⟩
  | ok v =>
    have := (parseInt_ok_iff s v).1 hp
    rw [h] at this
    cases this

theorem parseInt_error_kind (s : GoString) (e : Error) (h : ParseInt s = .error e) :
    ∃ kind, e = .numError (lit "ParseInt") s kind := by
  cases s with
  | nil =>
    simp only [ParseInt, Except.error.injEq] at h
    exact ⟨_, h.symm⟩
  | cons c rest =>
    simp only [ParseInt] at h
    generalize ParseUint (if c = 43 then rest else if c = 45 then rest else c :: rest) = r at h
    rcases r with ⟨un, err⟩
    unfold parseIntCheck at h
    split at h
    · simp only [Except.error.injEq] at h
      exact ⟨_, h.symm⟩
    · dsimp only at h
      split_ifs at h
      · simp only [Except.error.injEq] at h
        exact ⟨_, h.symm⟩
      · simp only [Except.error.injEq] at h
        exact ⟨_, h.symm⟩

theorem wrap64_of_range (x : Int) (h1 : -9223372036854775808 ≤ x)
    (h2 : x ≤ 9223372036854775807) : wrap64 x = x := by
  unfold wrap64
  omega

/-- Reading a record that carries token `t` and expiry `e`: the token is returned
as long as `now` is not later than `e`. -/
theorem getAccessTokenFromCache_of_record (cache : Cache) (now : Time) (key : GoString)
    (c : GoString → Option GoString) (e : Int) (t : GoString)
    (hc : cache key = some c) (he : expiresAt c = some e)
    (ht : c (lit "access_token") = some t)
    (hn0 : 0 ≤ now.nsec) (hn1 : now.nsec < 1000000000)
    (hlo : -9223372036854775808 ≤ e + unixToInternal)
    (hhi : e + unixToInternal ≤ 9223372036854775807) :
    getAccessTokenFromCache cache now key =
      if now.unixNano ≤ e * 1000000000 then t else [] := by
  unfold expiresAt at he
  cases hes : c (lit "expired_at") with
  | none => simp [hes] at he
  | some es =>
    rw [hes] at he
    have hp := (parseInt_ok_iff es e).2 he
    simp only [getAccessTokenFromCache, hc, hes, hp, ht, timeUnix,
      wrap64_of_range _ hlo hhi, Time.Before, Time.unixNano]
    by_cases hle : (now.ext - unixToInternal) * 1000000000 + now.nsec ≤ e * 1000000000
    · have h1 : ¬ (e + unixToInternal < now.ext) := by omega
      have h2 : ¬ (e + unixToInternal = now.ext ∧ 0 < now.nsec) := by omega
      simp [hle, h1]
      intro h3 h4
      exact absurd ⟨h3, h4⟩ h2
    · have h1 : e + unixToInternal < now.ext ∨
          (e + unixToInternal = now.ext ∧ 0 < now.nsec) := by omega
      simp only [hle, if_false]
      rcases h1 with h1 | ⟨h1, h2⟩
      · simp [h1]
      · simp [h1, h2]

/-- C8 (as stated, refuted): at the instant now = expiresAt (Unix second 100,
nanosecond 0) the specification promises absent, while
`getAccessTokenFromCache` still returns the stored token. -/
theorem get_at_expiry_instant :
    expiresAt (cacheRecord (lit "tok") (lit "100")) = some 100 ∧
    (timeUnix 100).unixNano = 100 * 1000000000 ∧
    claimedGet cacheAt100 (timeUnix 100) (lit "bni") = [] ∧
    getAccessTokenFromCache cacheAt100 (timeUnix 100) (lit "bni") = lit "tok" := by
  refine ⟨by decide, by decide, by decide, by decide⟩

/-- C8 (amended): for every cache state, key and read time `now`,
`getAccessTokenFromCache` returns the stored token exactly when a record exists
for the key and `now` is not later than its expiry (`now ≤ expiresAt`, so also
at the instant `now = expiresAt`); it returns the empty string when no record
exists, when the record lacks a readable expiry or a token, and when
`now > expiresAt`.  The expiry is a second that `time.Unix` represents in an
`int64` counted from year 1, and `now` has its nanoseconds below one second. -/
theorem getAccessTokenFromCache_spec (cache : Cache) (now : Time) (key : GoString) :
    (cache key = none → getAccessTokenFromCache cache now key = []) ∧
    (∀ c, cache key = some c → (expiresAt c = none ∨ c (lit "access_token") = none) →
      getAccessTokenFromCache cache now key = []) ∧
    (∀ c e t, cache key = some c → expiresAt c = some e →
      c (lit "access_token") = some t →
      0 ≤ now.nsec → now.nsec < 1000000000 →
      -9223372036854775808 ≤ e + unixToInternal →
      e + unixToInternal ≤ 9223372036854775807 →
      getAccessTokenFromCache cache now key =
        if now.unixNano ≤ e * 1000000000 then t else []) := by
  refine ⟨?_, ?_, ?_⟩
  · intro h
    simp [getAccessTokenFromCache, h]
  · intro c hc hbad
    simp only [getAccessTokenFromCache, hc]
    cases he : c (lit "expired_at") with
    | none => rfl
    | some es =>
      simp only
      cases hp : ParseInt es with
      | error e => rfl
      | ok v =>
        simp only
        rcases hbad with hx | ht
        · have := (parseInt_ok_iff es v).1 hp
          simp [expiresAt, he, this] at hx
        · simp [ht]
  · intro c e t hc he ht hn0 hn1 hlo hhi
    exact getAccessTokenFromCache_of_record cache now key c e t hc he ht hn0 hn1 hlo hhi

/-- C8 (amended), at the record of token "tok" expiring at Unix second 100: read
at second 100 exactly, the token is returned; one nanosecond later it is not. -/
theorem getAccessTokenFromCache_spec_witness :
    getAccessTokenFromCache cacheAt100 (timeUnix 100) (lit "bni") = lit "tok" ∧
    getAccessTokenFromCache cacheAt100 ⟨100 + unixToInternal, 1⟩ (lit "bni") = [] ∧
    getAccessTokenFromCache cacheAt100 (timeUnix 100) (lit "bri") = [] := by
  refine ⟨?_, ?_, ?_⟩
  · exact (getAccessTokenFromCache_spec cacheAt100 (timeUnix 100) (lit "bni")).2.2
      (cacheRecord (lit "tok") (lit "100")) 100 (lit "tok") rfl (by decide)
      (by decide) (by decide) (by decide) (by decide) (by decide)
  · exact (getAccessTokenFromCache_spec cacheAt100 ⟨100 + unixToInternal, 1⟩ (lit "bni")).2.2
      (cacheRecord (lit "tok") (lit "100")) 100 (lit "tok") rfl (by decide)
      (by decide) (by decide) (by decide) (by decide) (by decide)
  · exact (getAccessTokenFromCache_spec cacheAt100 (timeUnix 100) (lit "bri")).1 rfl

/-- C9: `setAccessTokenToCache` fails if and only if the data has no string
under `access_token` and none under `accessToken`, or no string under
`expires_in` and none under `expiresIn`, or the TTL string is not a base-10
signed 64-bit integer.  The first two failures are the two missing-field errors,
the third is a `strconv` number error on the TTL string (never a default TTL);
every failure returns the empty token and leaves the cache as it was.  In every
other case the token is returned (`access_token` before `accessToken`) with a
nil error. -/
theorem setAccessTokenToCache_result (cache : Cache) (now : Time) (key : GoString)
    (data : M) :
    ((setAccessTokenToCache cache now key data).1.2 ≠ none ↔
      (stringAt data (lit "access_token") = none ∧ stringAt data (lit "accessToken") = none) ∨
      (stringAt data (lit "expires_in") = none ∧ stringAt data (lit "expiresIn") = none) ∨
      (∃ ttl, ttlField data = some ttl ∧ decimalInt64 ttl = none)) ∧
    (tokenField data = none →
      setAccessTokenToCache cache now key data = (([], some .accessTokenUndefined), cache)) ∧
    (tokenField data ≠ none → ttlField data = none →
      setAccessTokenToCache cache now key data = (([], some .expiresInUndefined), cache)) ∧
    (∀ ttl, tokenField data ≠ none → ttlField data = some ttl → decimalInt64 ttl = none →
      ∃ kind, setAccessTokenToCache cache now key data =
        (([], some (.numError (lit "ParseInt") ttl kind)), cache)) ∧
    (∀ t ttl n, tokenField data = some t → ttlField data = some ttl →
      decimalInt64 ttl = some n →
      (setAccessTokenToCache cache now key data).1 = (t, none)) := by
  have htok : tokenField data = none ↔
      stringAt data (lit "access_token") = none ∧ stringAt data (lit "accessToken") = none := by
    unfold tokenField
    cases stringAt data (lit "access_token") <;> simp
  have httl : ttlField data = none ↔
      stringAt data (lit "expires_in") = none ∧ stringAt data (lit "expiresIn") = none := by
    unfold ttlField
    cases stringAt data (lit "expires_in") <;> simp
  rw [← htok, ← httl]
  have hdef : setAccessTokenToCache cache now key data =
      (match tokenField data with
        | none => (([], some .accessTokenUndefined), cache)
        | some accessToken =>
          match ttlField data with
          | none => (([], some .expiresInUndefined), cache)
          | some expStr =>
            match ParseInt expStr with
            | .error err => (([], some err), cache)
            | .ok expInt =>
              ((accessToken, none),
                fun k => if k = key then
                  some (cacheRecord accessToken
                    (FormatInt (now.Add (secondsToDuration expInt)).Unix))
                else cache k)) := rfl
  rw [hdef]
  cases h1 : tokenField data with
  | none => simp
  | some t =>
    cases h2 : ttlField data with
    | none => simp
    | some ttl =>
      cases h3 : decimalInt64 ttl with
      | none =>
        obtain ⟨e, he⟩ := parseInt_of_decimalInt64_none ttl h3
        obtain ⟨kind, hk⟩ := parseInt_error_kind ttl e he
        subst hk
        simp [he, h3]
        intro t1 ttl1 n _ h
        subst h
        simp [h3]
      | some n =>
        have hp := (parseInt_ok_iff ttl n).2 h3
        simp [hp, h3]
        intro t1 ttl1 n1 h _ _
        exact h

/-- C9, at the responses `{"access_token":"tok","expires_in":"abc"}` (malformed
TTL), `{"expires_in":"899"}` (no token) and
`{"access_token":"tok","expires_in":"899"}` (success). -/
theorem setAccessTokenToCache_result_witness :
    (∃ kind, setAccessTokenToCache cacheAt100 clock1700 (lit "bni") (tokenResponse "abc") =
      (([], some (.numError (lit "ParseInt") (lit "abc") kind)), cacheAt100)) ∧
    setAccessTokenToCache cacheAt100 clock1700 (lit "bni")
        (mapOf [(lit "expires_in", .str (lit "899"))]) =
      (([], some .accessTokenUndefined), cacheAt100) ∧
    (setAccessTokenToCache cacheAt100 clock1700 (lit "bni") (tokenResponse "899")).1 =
      (lit "tok", none) := by
  refine ⟨?_, ?_, ?_⟩
  · exact (setAccessTokenToCache_result cacheAt100 clock1700 (lit "bni")
      (tokenResponse "abc")).2.2.2.1 (lit "abc") (by decide) (by decide) (by decide)
  · exact (setAccessTokenToCache_result cacheAt100 clock1700 (lit "bni")
      (mapOf [(lit "expires_in", .str (lit "899"))])).2.1 (by decide)
  · exact (setAccessTokenToCache_result cacheAt100 clock1700 (lit "bni")
      (tokenResponse "899")).2.2.2.2 (lit "tok") (lit "899") 899 (by decide) (by decide)
      (by decide)

/-- C10 (failing input): the TTL string "9223372037" parses as the signed 64-bit
integer 9223372037, and `setAccessTokenToCache` succeeds with token "tok" at
clock second 1700000000; but the product with `time.Second` wraps, the stored
expiry is "-7523372037" instead of 1700000000 + 9223372037 = 10923372037, and a
read at the very second of the write already finds no token. -/
theorem setAccessTokenToCache_ttl_wraps :
    decimalInt64 (lit "9223372037") = some 9223372037 ∧
    secondsToDuration 9223372037 = -9223372036709551616 ∧
    (setAccessTokenToCache (fun _ => none) clock1700 (lit "bni")
      (tokenResponse "9223372037")).1 = (lit "tok", none) ∧
    ((setAccessTokenToCache (fun _ => none) clock1700 (lit "bni")
      (tokenResponse "9223372037")).2 (lit "bni")).map (fun c => c (lit "expired_at")) =
        some (some (lit "-7523372037")) ∧
    FormatInt (1700000000 + 9223372037) = lit "10923372037" ∧
    getAccessTokenFromCache
      (setAccessTokenToCache (fun _ => none) clock1700 (lit "bni")
        (tokenResponse "9223372037")).2 clock1700 (lit "bni") = [] := by
  refine ⟨by decide, by decide, by decide, by decide, by decide, by decide⟩

/-! ## Provider clients -/

theorem requests_log_request (w : World) (q : Request) :
    (w.log (.request q)).requests = q :: w.requests := rfl

theorem requests_log_sign (w : World) (s : GoString) :
    (w.log (.sign s)).requests = w.requests := rfl

theorem requests_tick (w : World) : w.tick.requests = w.requests := rfl

theorem makeRequest_requests (env : Env) (w : World) (uri : GoString) (bodyMap headers : M) :
    (makeRequest env w uri bodyMap headers).2.requests =
      ⟨uri, bodyMap, headers⟩ :: w.requests := by
  unfold makeRequest
  dsimp only
  split
  · rfl
  · split
    · rfl
    · split
      · rfl
      · split
        · split <;> rfl
        · rfl

theorem makeRequest_result (env : Env) (w : World) (uri : GoString) (bodyMap headers : M) :
    GatewayResult env (makeRequest env w uri bodyMap headers).1.Data
      (makeRequest env w uri bodyMap headers).1.Err := by
  unfold makeRequest
  dsimp only
  split
  · exact Or.inl ⟨rfl, by simp⟩
  · split
    · exact Or.inl ⟨rfl, by simp⟩
    · split
      · exact Or.inl ⟨rfl, by simp⟩
      · rename_i resBody hsend
        split
        · rename_i data err hdec
          split
          · rename_i hne
            cases data with
            | none => exact Or.inl ⟨rfl, by simp⟩
            | some f =>
              refine Or.inr (Or.inr ⟨_, _, resBody, hsend, ?_, Or.inr ⟨by simp, by simp, ?_, ?_⟩⟩)
              · rw [hdec]
              · simpa using hne
              · rw [hdec]
          · rename_i hne
            have heof : err = .EOF := by simpa using hne
            cases data with
            | none =>
              refine Or.inr (Or.inr ⟨_, _, resBody, hsend, ?_, Or.inl ⟨rfl, rfl, Or.inr ?_⟩⟩)
              · rw [hdec]
              · rw [hdec, heof]
            | some f => exact Or.inr (Or.inl ⟨by simp, rfl⟩)
        · rename_i data hdec
          cases data with
          | none =>
            refine Or.inr (Or.inr ⟨_, _, resBody, hsend, ?_, Or.inl ⟨rfl, rfl, Or.inl ?_⟩⟩)
            · rw [hdec]
            · rw [hdec]
          | some f => exact Or.inr (Or.inl ⟨by simp, rfl⟩)

/-- A failure of `makeRequest` before the response is decoded gives the nil
map together with the error. -/
theorem makeRequest_failure (env : Env) (w : World) (uri : GoString) (bodyMap headers : M)
    (e : Error)
    (h : env.marshal bodyMap = .error e ∨
      (∃ b, env.marshal bodyMap = .ok b ∧ env.newRequest uri = some e) ∨
      (∃ b, env.marshal bodyMap = .ok b ∧ env.newRequest uri = none ∧
        env.send w.step ⟨uri, b, stringAt headers⟩ = .error e)) :
    (makeRequest env w uri bodyMap headers).1 = ⟨none, some e⟩ := by
  unfold makeRequest
  rcases h with h | ⟨b, h1, h2⟩ | ⟨b, h1, h2, h3⟩
  · simp [h]
  · simp [h1, h2]
  · have h3b : env.send (w.log (.request ⟨uri, bodyMap, headers⟩)).step
        ⟨uri, b, stringAt headers⟩ = .error e := h3
    simp [h1, h2, h3b]

theorem getTimestamp_world (env : Env) (mpm : BriMpmDynamic) (w : World) :
    (mpm.getTimestamp env w).2 = w.tick := by
  unfold BriMpmDynamic.getTimestamp
  dsimp only
  split_ifs
  · split <;> rfl
  · rfl

theorem signAndSend_result (env : Env) (mpm : BriMpmDynamic) (w : World)
    (accessToken endpoint : GoString) (bodyMap : M) :
    GatewayResult env (mpm.signAndSend env w accessToken endpoint bodyMap).1.1
      (mpm.signAndSend env w accessToken endpoint bodyMap).1.2 := by
  unfold BriMpmDynamic.signAndSend
  dsimp only
  split
  · exact Or.inl ⟨rfl, by simp⟩
  · exact makeRequest_result _ _ _ _ _

theorem signAndSend_requests (env : Env) (mpm : BriMpmDynamic) (w : World)
    (accessToken endpoint : GoString) (bodyMap : M) :
    (mpm.signAndSend env w accessToken endpoint bodyMap).2.requests = w.requests ∨
    ∃ q, (mpm.signAndSend env w accessToken endpoint bodyMap).2.requests = q :: w.requests ∧
      q.uri = mpm.Host ++ lit "/" ++ endpoint ∧ q.bodyMap = bodyMap := by
  unfold BriMpmDynamic.signAndSend
  dsimp only
  split
  · rename_i e w1 h
    left
    have := getTimestamp_world env mpm w
    rw [h] at this
    simp only at this
    rw [this]
    rfl
  · rename_i ts w1 h
    right
    have := getTimestamp_world env mpm w
    rw [h] at this
    simp only at this
    subst this
    rw [makeRequest_requests]
    exact ⟨_, rfl, rfl, rfl⟩

theorem setValueIfEmpty_keeps (m : M) (k s : GoString) (h : index m k = some (.str s))
    (k2 : GoString) (v : Val) :
    ∃ m1, SetValueIfEmpty m k2 v = .ret m1 ∧ index m1 k = some (.str s) := by
  cases m with
  | none => simp [index] at h
  | some f =>
    unfold SetValueIfEmpty
    split
    · exact ⟨_, rfl, h⟩
    · rename_i hns
      refine ⟨_, rfl, ?_⟩
      have hk : k ≠ k2 := by
        intro hk
        subst hk
        exact hns s h
      simpa [index, hk] using h
theorem setValueIfEmpty_some (f : GoString → Option Val) (k : GoString) (v : Val) :
    ∃ g, SetValueIfEmpty (some f) k v = .ret (some g) := by
  unfold SetValueIfEmpty
  split
  · exact ⟨f, rfl⟩
  · exact ⟨_, rfl⟩

theorem setValueIfEmptyWithFunc_some (f : GoString → Option Val) (k k2 : GoString) (v : Val)
    (h : index (some f) k ≠ some (.obj none)) :
    ∃ g, SetValueIfEmptyWithFunc (some f) k (fun m => SetValueIfEmpty m k2 v) =
      .ret (some g) := by
  unfold SetValueIfEmptyWithFunc
  split
  · rename_i o ho
    cases o with
    | none => exact absurd ho h
    | some g =>
      obtain ⟨g2, hg⟩ := setValueIfEmpty_some g k2 v
      simp only [hg]
      exact ⟨_, rfl⟩
  · obtain ⟨g2, hg⟩ := setValueIfEmpty_some (fun k => List.lookup k []) k2 v
    simp only [mapOf, hg]
    exact ⟨_, rfl⟩

theorem setValueIfEmpty_fills (f : GoString → Option Val) (k : GoString) (v : Val)
    (h : ∀ s, f k ≠ some (.str s)) :
    ∃ m1, SetValueIfEmpty (some f) k v = .ret m1 ∧ index m1 k = some v ∧
      ∀ k2, k2 ≠ k → index m1 k2 = f k2 := by
  refine ⟨some (fun k2 => if k2 = k then some v else f k2), ?_, by simp [index], ?_⟩
  · unfold SetValueIfEmpty
    split
    · rename_i s hs
      exact absurd hs (h s)
    · rfl
  · intro k2 hk
    simp [index, hk]

/-- The body `Bni.GenerateQRCode` hands to `makeRequest` is the payload of the
request, as it is. -/
theorem bni_generate_body (env : Env) (bni : Bni) (w w1 : World) (r : IRequest)
    (tok : GoString) (htok : bni.getAccessToken env w = ((tok, none), w1)) :
    ∃ res w2, bni.GenerateQRCode env w r = .ret (res, w2) ∧
      ∃ q, w2.requests = q :: w1.requests ∧
        q.uri = bni.Host ++ lit "/" ++ lit "qr/generate-qr" ∧ q.bodyMap = r.Payload := by
  simp only [Bni.GenerateQRCode, htok]
  exact ⟨_, _, rfl, _, makeRequest_requests _ _ _ _ _, rfl, rfl⟩

/-- The body `BriMpmDynamic.GenerateQRCode` hands to `makeRequest` for a payload
without a string under `merchantId` carries the configured merchant id. -/
theorem bri_generate_fills_merchant_id (env : Env) (mpm : BriMpmDynamic) (w w1 : World)
    (r : IRequest) (f : GoString → Option Val) (tok : GoString)
    (hp : r.Payload = some f) (hno : ∀ s, f (lit "merchantId") ≠ some (.str s))
    (htok : mpm.getAccessToken env w = .ret ((tok, none), w1)) :
    ∃ res w2, mpm.GenerateQRCode env w r = .ret (res, w2) ∧
      (w2.requests = w1.requests ∨
        ∃ q, w2.requests = q :: w1.requests ∧
          index q.bodyMap (lit "merchantId") = some (.str mpm.MerchantID)) := by
  obtain ⟨b1, hb1, hi1, _⟩ := setValueIfEmpty_fills f (lit "merchantId")
    (.str mpm.MerchantID) hno
  obtain ⟨b2, hb2, hi2⟩ := setValueIfEmpty_keeps b1 (lit "merchantId") mpm.MerchantID hi1
    (lit "terminalId") (.str mpm.TerminalID)
  refine ⟨(mpm.signAndSend env w1 tok (lit "v1.0/qr-dynamic-mpm/qr-mpm-generate-qr") b2).1,
    (mpm.signAndSend env w1 tok (lit "v1.0/qr-dynamic-mpm/qr-mpm-generate-qr") b2).2, ?_, ?_⟩
  · simp only [BriMpmDynamic.GenerateQRCode, htok, hp, hb1, hb2]
  · rcases signAndSend_requests env mpm w1 tok
        (lit "v1.0/qr-dynamic-mpm/qr-mpm-generate-qr") b2 with h | ⟨q, hq, _, hbody⟩
    · exact Or.inl h
    · exact Or.inr ⟨q, hq, by rw [hbody]; exact hi2⟩

/-- C3 (failing input): the BNI client configured with merchant id "M-001"
generates a QR code for the typed request of its test, whose payload carries no
merchant id.  The body handed to `makeRequest` for `qr/generate-qr` has no
string under `merchant_id`; the BRI client in the same scenario sends its
configured "M-002" under `merchantId`. -/
theorem bni_generate_sends_no_merchant_id :
    stringAt exampleBniRequest.Payload (lit "merchant_id") = none ∧
    bodiesAt (lit "merchant_id")
      (exampleBni.GenerateQRCode (exampleEnv (lit "qr")) freshWorld
        ⟨exampleBniRequest.Payload⟩) =
      [(lit "https://bni.example/qr/generate-qr", none),
        (lit "https://bni.example/auth/get-token", none)] ∧
    bodiesAt (lit "merchantId")
      (exampleBri.GenerateQRCode (exampleEnv (lit "qr")) freshWorld
        ⟨exampleBriRequest.Payload⟩) =
      [(lit "https://bri.example/v1.0/qr-dynamic-mpm/qr-mpm-generate-qr", some (lit "M-002")),
        (lit "https://bri.example/snap/v1.0/access-token/b2b", none)] := by
  refine ⟨by decide, by decide, by decide⟩

/-- C4 (as stated, refuted): a payload that supplies the merchant id as a
number already has a value under `merchantId`, yet `SetValueIfEmpty` replaces it
by the default, and the body `BriMpmDynamic.GenerateQRCode` sends carries the
configured "M-002". -/
theorem setValueIfEmpty_overwrites_non_string :
    (index numericMerchantPayload (lit "merchantId")).isSome = true ∧
    stringAfter (SetValueIfEmpty numericMerchantPayload (lit "merchantId")
      (.str (lit "M-002"))) (lit "merchantId") = some (lit "M-002") ∧
    bodiesAt (lit "merchantId")
      (exampleBri.GenerateQRCode (exampleEnv (lit "qr")) freshWorld
        ⟨numericMerchantPayload⟩) =
      [(lit "https://bri.example/v1.0/qr-dynamic-mpm/qr-mpm-generate-qr", some (lit "M-002")),
        (lit "https://bri.example/snap/v1.0/access-token/b2b", none)] := by
  refine ⟨by decide, by decide, by decide⟩

/-- C4 (amended): for every key `k` and default `v`.
(1) For every payload map `m` that holds a string under `k` (even one that
differs from `v`, even the empty string), `SetValueIfEmpty` leaves `m` entirely
unchanged.
(2) For every non-nil payload map that holds no string under `k` (the key is
missing or holds a non-string value), it sets `m[k]` to `v` and all keys other
than `k` keep their values.
(3) On the nil map, which holds nothing, the call panics (assignment to an entry
of a nil map).
(4) Consequently the body `BriMpmDynamic.GenerateQRCode` sends keeps every
string the caller supplied, so a caller-supplied string under `merchantId` or
`terminalId` rather than the configured default. -/
theorem setValueIfEmpty_spec :
    (∀ (m : M) (k : GoString) (v : Val) (s : GoString),
      index m k = some (.str s) → SetValueIfEmpty m k v = .ret m) ∧
    (∀ (f : GoString → Option Val) (k : GoString) (v : Val),
      (∀ s, f k ≠ some (.str s)) →
      ∃ m1, SetValueIfEmpty (some f) k v = .ret m1 ∧ index m1 k = some v ∧
        ∀ k2, k2 ≠ k → index m1 k2 = f k2) ∧
    (∀ (k : GoString) (v : Val),
      (∀ k2, index none k2 = none) ∧ SetValueIfEmpty none k v = .panic) ∧
    (∀ (env : Env) (mpm : BriMpmDynamic) (w w1 : World) (r : IRequest)
      (k s tok : GoString),
      index r.Payload k = some (.str s) →
      mpm.getAccessToken env w = .ret ((tok, none), w1) →
      ∃ res w2, mpm.GenerateQRCode env w r = .ret (res, w2) ∧
        (w2.requests = w1.requests ∨
          ∃ q, w2.requests = q :: w1.requests ∧ index q.bodyMap k = some (.str s))) := by
  refine ⟨?_, ?_, ?_, ?_⟩
  · intro m k v s h
    simp [SetValueIfEmpty, h]
  · intro f k v h
    exact setValueIfEmpty_fills f k v h
  · intro k v
    exact ⟨fun _ => rfl, rfl⟩
  · intro env mpm w w1 r k s tok hidx htok
    obtain ⟨b1, hb1, hi1⟩ := setValueIfEmpty_keeps r.Payload k s hidx (lit "merchantId")
      (.str mpm.MerchantID)
    obtain ⟨b2, hb2, hi2⟩ := setValueIfEmpty_keeps b1 k s hi1 (lit "terminalId")
      (.str mpm.TerminalID)
    refine ⟨(mpm.signAndSend env w1 tok (lit "v1.0/qr-dynamic-mpm/qr-mpm-generate-qr") b2).1,
      (mpm.signAndSend env w1 tok (lit "v1.0/qr-dynamic-mpm/qr-mpm-generate-qr") b2).2, ?_, ?_⟩
    · simp only [BriMpmDynamic.GenerateQRCode, htok, hb1, hb2]
    · rcases signAndSend_requests env mpm w1 tok
          (lit "v1.0/qr-dynamic-mpm/qr-mpm-generate-qr") b2 with h | ⟨q, hq, _, hbody⟩
      · exact Or.inl h
      · exact Or.inr ⟨q, hq, by rw [hbody]; exact hi2⟩

/-- C4 (amended), at a payload that supplies the merchant id "M-777": the map is
unchanged by `SetValueIfEmpty`, a missing `terminalId` is filled while
`merchantId` keeps its value, and the body the BRI client sends still carries
"M-777"; on the nil map the call panics. -/
theorem setValueIfEmpty_spec_witness :
    stringAfter (SetValueIfEmpty ownMerchantPayload (lit "merchantId")
      (.str (lit "M-002"))) (lit "merchantId") = some (lit "M-777") ∧
    stringAfter (SetValueIfEmpty ownMerchantPayload (lit "terminalId")
      (.str (lit "T-002"))) (lit "terminalId") = some (lit "T-002") ∧
    (∃ m1, SetValueIfEmpty ownMerchantPayload (lit "terminalId") (.str (lit "T-002")) =
        .ret m1 ∧ stringAt m1 (lit "terminalId") = some (lit "T-002") ∧
      stringAt m1 (lit "merchantId") = some (lit "M-777")) ∧
    SetValueIfEmpty none (lit "merchantId") (.str (lit "M-002")) = .panic ∧
    bodiesAt (lit "merchantId")
      (exampleBri.GenerateQRCode (exampleEnv (lit "qr")) freshWorld ⟨ownMerchantPayload⟩) =
      [(lit "https://bri.example/v1.0/qr-dynamic-mpm/qr-mpm-generate-qr", some (lit "M-777")),
        (lit "https://bri.example/snap/v1.0/access-token/b2b", none)] := by
  refine ⟨?_, by decide, ?_, ?_, by decide⟩
  · rw [setValueIfEmpty_spec.1 ownMerchantPayload (lit "merchantId") (.str (lit "M-002"))
      (lit "M-777") rfl]
    decide
  · obtain ⟨m1, h1, h2, h3⟩ := setValueIfEmpty_spec.2.1
      (fun k => List.lookup k [(lit "partnerReferenceNo", Val.str (lit "1700000000123")),
        (lit "merchantId", Val.str (lit "M-777"))])
      (lit "terminalId") (.str (lit "T-002")) (fun s h => nomatch h)
    refine ⟨m1, h1, ?_, ?_⟩
    · simp only [stringAt, h2]
    · simp only [stringAt, h3 (lit "merchantId") (by decide)]
      rfl
  · exact (setValueIfEmpty_spec.2.2.1 (lit "merchantId") (.str (lit "M-002"))).2

theorem bni_call_result (env : Env) (c : Bni) (op : Operation) (w : World) (r : IRequest)
    (data : M) (err : Option Error) (w2 : World)
    (h : Provider.call env (.bni c) op w r = .ret ((data, err), w2)) :
    GatewayResult env data err := by
  rcases htok : c.getAccessToken env w with ⟨⟨tok, _ | e⟩, w1⟩
  · cases op with
    | GenerateQRCode =>
      simp only [Provider.call, Bni.GenerateQRCode, htok, Outcome.ret.injEq, Prod.mk.injEq] at h
      obtain ⟨⟨h1, h2⟩, _⟩ := h
      rw [← h1, ← h2]
      exact makeRequest_result _ _ _ _ _
    | CheckStatusTransaction =>
      simp only [Provider.call, Bni.CheckStatusTransaction, htok] at h
      split at h
      · cases h
      · simp only [Outcome.ret.injEq, Prod.mk.injEq] at h
        obtain ⟨⟨h1, h2⟩, _⟩ := h
        rw [← h1, ← h2]
        exact makeRequest_result _ _ _ _ _
  · cases op <;>
      simp only [Provider.call, Bni.GenerateQRCode, Bni.CheckStatusTransaction, htok,
        Outcome.ret.injEq, Prod.mk.injEq] at h <;>
      (obtain ⟨⟨h1, h2⟩, _⟩ := h
       rw [← h1, ← h2]
       exact Or.inl ⟨rfl, by simp⟩)

theorem bri_call_result (env : Env) (c : BriMpmDynamic) (op : Operation) (w : World)
    (r : IRequest) (data : M) (err : Option Error) (w2 : World)
    (h : Provider.call env (.briMpmDynamic c) op w r = .ret ((data, err), w2)) :
    GatewayResult env data err := by
  cases htok : c.getAccessToken env w with
  | panic =>
    cases op <;>
      simp [Provider.call, BriMpmDynamic.GenerateQRCode,
        BriMpmDynamic.CheckStatusTransaction, htok] at h
  | ret x =>
    rcases x with ⟨⟨tok, _ | e⟩, w1⟩
    · cases op with
      | GenerateQRCode =>
        simp only [Provider.call, BriMpmDynamic.GenerateQRCode, htok] at h
        split at h
        · cases h
        · split at h
          · cases h
          · simp only [Outcome.ret.injEq] at h
            have h1 := congrArg (fun x => x.1.1) h
            have h2 := congrArg (fun x => x.1.2) h
            simp only at h1 h2
            rw [← h1, ← h2]
            exact signAndSend_result _ _ _ _ _ _
      | CheckStatusTransaction =>
        simp only [Provider.call, BriMpmDynamic.CheckStatusTransaction, htok] at h
        split at h
        · cases h
        · simp only [Outcome.ret.injEq] at h
          have h1 := congrArg (fun x => x.1.1) h
          have h2 := congrArg (fun x => x.1.2) h
          simp only at h1 h2
          rw [← h1, ← h2]
          exact signAndSend_result _ _ _ _ _ _
    · cases op <;>
        simp only [Provider.call, BriMpmDynamic.GenerateQRCode,
          BriMpmDynamic.CheckStatusTransaction, htok,
          Outcome.ret.injEq, Prod.mk.injEq] at h <;>
        (obtain ⟨⟨h1, h2⟩, _⟩ := h
         rw [← h1, ← h2]
         exact Or.inl ⟨rfl, by simp⟩)

theorem call_token_failure (env : Env) (p : Provider) (op : Operation) (w w1 : World)
    (r : IRequest) (tok : GoString) (e : Error)
    (h : p.getAccessToken env w = .ret ((tok, some e), w1)) :
    p.call env op w r = .ret ((none, some e), w1) := by
  cases p with
  | bni c =>
    simp only [Provider.getAccessToken, Outcome.ret.injEq] at h
    cases op <;> simp [Provider.call, Bni.GenerateQRCode, Bni.CheckStatusTransaction, h]
  | briMpmDynamic c =>
    simp only [Provider.getAccessToken] at h
    cases op <;>
      simp [Provider.call, BriMpmDynamic.GenerateQRCode,
        BriMpmDynamic.CheckStatusTransaction, h]

theorem call_returns (env : Env) (p : Provider) (op : Operation) (w : World) (r : IRequest)
    (f : GoString → Option Val) (hp : r.Payload = some f)
    (hinfo : f (lit "additionalInfo") ≠ some (.obj none))
    (htok : p.getAccessToken env w ≠ .panic) :
    ∃ res, p.call env op w r = .ret res := by
  cases p with
  | bni c =>
    rcases ht : c.getAccessToken env w with ⟨⟨tok, _ | e⟩, w1⟩
    · cases op with
      | GenerateQRCode =>
        simp only [Provider.call, Bni.GenerateQRCode, ht]
        exact ⟨_, rfl⟩
      | CheckStatusTransaction =>
        obtain ⟨g, hg⟩ := setValueIfEmpty_some f (lit "mid") (.str c.MerchantID)
        simp only [Provider.call, Bni.CheckStatusTransaction, ht, hp, hg]
        exact ⟨_, rfl⟩
    · cases op <;>
        simp only [Provider.call, Bni.GenerateQRCode, Bni.CheckStatusTransaction, ht] <;>
        exact ⟨_, rfl⟩
  | briMpmDynamic c =>
    simp only [Provider.getAccessToken] at htok
    cases ht : c.getAccessToken env w with
    | panic => exact absurd ht htok
    | ret x =>
      rcases x with ⟨⟨tok, _ | e⟩, w1⟩
      · cases op with
        | GenerateQRCode =>
          obtain ⟨g, hg⟩ := setValueIfEmpty_some f (lit "merchantId") (.str c.MerchantID)
          obtain ⟨g2, hg2⟩ := setValueIfEmpty_some g (lit "terminalId") (.str c.TerminalID)
          simp only [Provider.call, BriMpmDynamic.GenerateQRCode, ht, hp, hg, hg2]
          exact ⟨_, rfl⟩
        | CheckStatusTransaction =>
          obtain ⟨g, hg⟩ := setValueIfEmptyWithFunc_some f (lit "additionalInfo")
            (lit "terminalId") (.str c.TerminalID) hinfo
          simp only [Provider.call, BriMpmDynamic.CheckStatusTransaction, ht, hp, hg]
          exact ⟨_, rfl⟩
      · cases op <;>
          simp only [Provider.call, BriMpmDynamic.GenerateQRCode,
            BriMpmDynamic.CheckStatusTransaction, ht] <;>
          exact ⟨_, rfl⟩
theorem makeRequest_trace (env : Env) (w : World) (uri : GoString) (bodyMap headers : M) :
    (makeRequest env w uri bodyMap headers).2.trace =
      .request ⟨uri, bodyMap, headers⟩ :: w.trace := by
  unfold makeRequest
  dsimp only
  split
  · rfl
  · split
    · rfl
    · split
      · rfl
      · split
        · split <;> rfl
        · rfl

theorem makeRequest_failure_of (env : Env) (w0 : World) (q : Request) (e : Error)
    (h : TransportFails env w0 q e) :
    (makeRequest env w0 q.uri q.bodyMap q.headers).1 = ⟨none, some e⟩ :=
  makeRequest_failure env w0 q.uri q.bodyMap q.headers e h

theorem signAndSend_transport (env : Env) (mpm : BriMpmDynamic) (w : World)
    (accessToken endpoint : GoString) (bodyMap : M) :
    ((mpm.signAndSend env w accessToken endpoint bodyMap).2.trace = w.trace ∧
      (mpm.signAndSend env w accessToken endpoint bodyMap).1.1 = none ∧
      (mpm.signAndSend env w accessToken endpoint bodyMap).1.2 ≠ none) ∨
    ∃ (q : Request) (w0 : World), q.uri = mpm.Host ++ lit "/" ++ endpoint ∧
      q.bodyMap = bodyMap ∧
      w0.cache = w.cache ∧ w0.trace = w.trace ∧ w.step ≤ w0.step ∧
      makeRequest env w0 q.uri q.bodyMap q.headers =
        (⟨(mpm.signAndSend env w accessToken endpoint bodyMap).1.1,
          (mpm.signAndSend env w accessToken endpoint bodyMap).1.2⟩,
          (mpm.signAndSend env w accessToken endpoint bodyMap).2) := by
  unfold BriMpmDynamic.signAndSend
  have hw := getTimestamp_world env mpm w
  rcases hgt : mpm.getTimestamp env w with ⟨⟨ts, _ | e⟩, w1⟩
  · rw [hgt] at hw
    simp only at hw
    subst hw
    right
    exact ⟨⟨mpm.Host ++ lit "/" ++ endpoint, bodyMap, _⟩, w.tick.tick, rfl, rfl, rfl, rfl,
      by simp only [World.tick]; omega, rfl⟩
  · rw [hgt] at hw
    simp only at hw
    subst hw
    left
    exact ⟨rfl, rfl, by simp⟩

theorem call_transport (env : Env) (p : Provider) (op : Operation) (w w1 w2 : World)
    (r : IRequest) (tok : GoString) (data : M) (err : Option Error)
    (htok : p.getAccessToken env w = .ret ((tok, none), w1))
    (hcall : p.call env op w r = .ret ((data, err), w2)) :
    (w2.trace = w1.trace ∧ data = none ∧ err ≠ none) ∨
    ∃ (q : Request) (w0 : World), q.uri = p.operationUri op ∧ w0.cache = w1.cache ∧
      w0.trace = w1.trace ∧
      w1.step ≤ w0.step ∧
      makeRequest env w0 q.uri q.bodyMap q.headers = (⟨data, err⟩, w2) := by
  cases p with
  | bni c =>
    simp only [Provider.getAccessToken, Outcome.ret.injEq] at htok
    right
    cases op with
    | GenerateQRCode =>
      simp only [Provider.call, Bni.GenerateQRCode, htok, Outcome.ret.injEq,
        Prod.mk.injEq] at hcall
      obtain ⟨⟨h1, h2⟩, h3⟩ := hcall
      subst h1 h2 h3
      exact ⟨⟨_, _, _⟩, w1, rfl, rfl, rfl, le_refl _, rfl⟩
    | CheckStatusTransaction =>
      simp only [Provider.call, Bni.CheckStatusTransaction, htok] at hcall
      split at hcall
      · cases hcall
      · simp only [Outcome.ret.injEq, Prod.mk.injEq] at hcall
        obtain ⟨⟨h1, h2⟩, h3⟩ := hcall
        subst h1 h2 h3
        exact ⟨⟨_, _, _⟩, w1, rfl, rfl, rfl, le_refl _, rfl⟩
  | briMpmDynamic c =>
    simp only [Provider.getAccessToken] at htok
    cases op with
    | GenerateQRCode =>
      simp only [Provider.call, BriMpmDynamic.GenerateQRCode, htok] at hcall
      split at hcall
      · cases hcall
      · split at hcall
        · cases hcall
        · rename_i b1 _ bodyMap _
          simp only [Outcome.ret.injEq] at hcall
          have h1 := congrArg (fun x => x.1.1) hcall
          have h2 := congrArg (fun x => x.1.2) hcall
          have h3 := congrArg (fun x => x.2) hcall
          simp only at h1 h2 h3
          rcases signAndSend_transport env c w1 tok
              (lit "v1.0/qr-dynamic-mpm/qr-mpm-generate-qr") bodyMap with
            ⟨a1, a2, a3⟩ | ⟨q, w0, b1, _, b3, b4, b5, b6⟩
          · rw [h1, h2, h3] at *
            exact Or.inl ⟨a1, a2, a3⟩
          · rw [h1, h2, h3] at b6
            exact Or.inr ⟨q, w0, b1, b3, b4, b5, b6⟩
    | CheckStatusTransaction =>
      simp only [Provider.call, BriMpmDynamic.CheckStatusTransaction, htok] at hcall
      split at hcall
      · cases hcall
      · rename_i bodyMap _
        simp only [Outcome.ret.injEq] at hcall
        have h1 := congrArg (fun x => x.1.1) hcall
        have h2 := congrArg (fun x => x.1.2) hcall
        have h3 := congrArg (fun x => x.2) hcall
        simp only at h1 h2 h3
        rcases signAndSend_transport env c w1 tok
            (lit "v1.0/qr-dynamic-mpm/qr-mpm-query") bodyMap with
          ⟨a1, a2, a3⟩ | ⟨q, w0, b1, _, b3, b4, b5, b6⟩
        · rw [h1, h2, h3] at *
          exact Or.inl ⟨a1, a2, a3⟩
        · rw [h1, h2, h3] at b6
          exact Or.inr ⟨q, w0, b1, b3, b4, b5, b6⟩

/-- C5 (as stated, refuted): the bank answers the QR or status request with an
empty body.  The decoder reports `io.EOF`, which `makeRequest` does not count as
an error, and the call returns the nil map together with the nil error, for
both providers and both operations. -/
theorem gateway_empty_body_nil_nil :
    (exampleEnv []).decode [] = (none, some .EOF) ∧
    returned (Provider.call (exampleEnv []) (.bni exampleBni) .GenerateQRCode freshWorld
      ⟨exampleBniRequest.Payload⟩) = some (false, none) ∧
    returned (Provider.call (exampleEnv []) (.bni exampleBni) .CheckStatusTransaction
      freshWorld ⟨exampleBniStatus.Payload⟩) = some (false, none) ∧
    returned (Provider.call (exampleEnv []) (.briMpmDynamic exampleBri) .GenerateQRCode
      freshWorld ⟨exampleBriRequest.Payload⟩) = some (false, none) ∧
    returned (Provider.call (exampleEnv []) (.briMpmDynamic exampleBri)
      .CheckStatusTransaction freshWorld ⟨exampleBriStatus.Payload⟩) = some (false, none) := by
  refine ⟨rfl, by decide, by decide, by decide, by decide⟩

/-- C5 (amended): for both providers and both operations, with the library calls
behind `makeRequest` arbitrary.
(1) A token-acquisition failure `e` makes the call return the nil map with `e`,
in the state token acquisition left, so that no QR or status request is issued.
(2) Every call that returns yields a nil map with a non-nil error, or a non-nil
map with a nil error, or what the decoder made of a response body (a nil map
with a nil error when the body is empty or holds no map; the map the decoder
left together with its error when decoding fails with an error other than
`io.EOF`).
(3) A call on a non-nil payload whose `additionalInfo` entry is not a nil map of
type `M` returns whenever token acquisition returns.
(4) A failure of `makeRequest` before decoding yields the nil map with the
error.
(5) Once the token is acquired, a call that returns either issued no request
and returns the nil map with an error (the BRI timestamp failed), or issued
exactly the request to the endpoint of the operation and returns the very pair
`makeRequest` returned for it; so a transport failure `e` of that request
before decoding (serialization, request construction, sending) makes the call
return the nil map with `e`. -/
theorem gateway_call_result (env : Env) (p : Provider) (op : Operation) (w : World)
    (r : IRequest) :
    (∀ tok e w1, p.getAccessToken env w = .ret ((tok, some e), w1) →
      p.call env op w r = .ret ((none, some e), w1)) ∧
    (∀ data err w2, p.call env op w r = .ret ((data, err), w2) →
      GatewayResult env data err) ∧
    (∀ f, r.Payload = some f → f (lit "additionalInfo") ≠ some (.obj none) →
      p.getAccessToken env w ≠ .panic → ∃ res, p.call env op w r = .ret res) ∧
    (∀ w0 uri bodyMap headers e,
      (env.marshal bodyMap = .error e ∨
        (∃ b, env.marshal bodyMap = .ok b ∧ env.newRequest uri = some e) ∨
        (∃ b, env.marshal bodyMap = .ok b ∧ env.newRequest uri = none ∧
          env.send w0.step ⟨uri, b, stringAt headers⟩ = .error e)) →
      (makeRequest env w0 uri bodyMap headers).1 = ⟨none, some e⟩) ∧
    (∀ tok w1 data err w2, p.getAccessToken env w = .ret ((tok, none), w1) →
      p.call env op w r = .ret ((data, err), w2) →
      (w2.trace = w1.trace ∧ data = none ∧ err ≠ none) ∨
      ∃ (q : Request) (w0 : World), q.uri = p.operationUri op ∧ w0.cache = w1.cache ∧
        w0.trace = w1.trace ∧ w1.step ≤ w0.step ∧
        makeRequest env w0 q.uri q.bodyMap q.headers = (⟨data, err⟩, w2) ∧
        w2.trace = .request q :: w1.trace ∧
        ∀ e, TransportFails env w0 q e → data = none ∧ err = some e) := by
  refine ⟨?_, ?_, ?_, ?_, ?_⟩
  · intro tok e w1 h
    exact call_token_failure env p op w w1 r tok e h
  · intro data err w2 h
    cases p with
    | bni c => exact bni_call_result env c op w r data err w2 h
    | briMpmDynamic c => exact bri_call_result env c op w r data err w2 h
  · intro f hp hinfo htok
    exact call_returns env p op w r f hp hinfo htok
  · intro w0 uri bodyMap headers e h
    exact makeRequest_failure env w0 uri bodyMap headers e h
  · intro tok w1 data err w2 htok hcall
    rcases call_transport env p op w w1 w2 r tok data err htok hcall with
      h | ⟨q, w0, h1, h2, h3, h4, h5⟩
    · exact Or.inl h
    · refine Or.inr ⟨q, w0, h1, h2, h3, h4, h5, ?_, ?_⟩
      · have ht := makeRequest_trace env w0 q.uri q.bodyMap q.headers
        rw [h5] at ht
        simp only at ht
        rw [ht, h3]
      · intro e hf
        have hm := makeRequest_failure_of env w0 q e hf
        rw [h5] at hm
        simp only [responseData.mk.injEq] at hm
        exact hm

/-- C5 (amended), for the BNI client: when the token endpoint answers without a
token, `GenerateQRCode` returns the nil map with the authentication error and
only the token request was made; at the working client the call returns; and
when the network fails on the QR request the call returns the nil map with that
error. -/
theorem gateway_call_result_witness :
    (∃ w1, Provider.call (exampleEnv (lit "qr")) (.bni strayBni) .GenerateQRCode freshWorld
        ⟨exampleBniRequest.Payload⟩ = .ret ((none, some (.bni (lit "00") [])), w1) ∧
      w1.requests.map (fun q => q.uri) = [lit "https://stray.example/auth/get-token"]) ∧
    (∃ res, Provider.call (exampleEnv (lit "qr")) (.bni exampleBni) .GenerateQRCode freshWorld
        ⟨exampleBniRequest.Payload⟩ = .ret res) ∧
    (∃ data err w2, Provider.call offlineEnv (.bni exampleBni) .GenerateQRCode freshWorld
        ⟨exampleBniRequest.Payload⟩ = .ret ((data, err), w2) ∧ data = none ∧
        err = some (.lib 3)) ∧
    returned (Provider.call offlineEnv (.briMpmDynamic exampleBri) .CheckStatusTransaction
      freshWorld ⟨exampleBriStatus.Payload⟩) = some (false, some (.lib 3)) := by
  refine ⟨⟨_, (gateway_call_result (exampleEnv (lit "qr")) (.bni strayBni) .GenerateQRCode
      freshWorld ⟨exampleBniRequest.Payload⟩).1 [] (.bni (lit "00") []) _ rfl, by decide⟩,
    ?_, ?_, by decide⟩
  · exact (gateway_call_result (exampleEnv (lit "qr")) (.bni exampleBni) .GenerateQRCode
      freshWorld ⟨exampleBniRequest.Payload⟩).2.2.1 _ rfl
      (fun h => nomatch (show (none : Option Val) = some (Val.obj none) from h))
      (by simp [Provider.getAccessToken])
  · refine ⟨_, _, _, rfl, ?_⟩
    rcases (gateway_call_result offlineEnv (.bni exampleBni) .GenerateQRCode freshWorld
        ⟨exampleBniRequest.Payload⟩).2.2.2.2 (lit "tok") _ _ _ _ rfl rfl with
      ⟨ht, _, _⟩ | ⟨q, w0, hq, _, _, _, _, _, hf⟩
    · exact absurd (congrArg List.length ht) (by decide)
    · exact hf (.lib 3) (Or.inr (Or.inr ⟨lit "body", rfl, rfl, by rw [hq]; rfl⟩))

/-! ## Expiry arithmetic within range -/

theorem decimalFrom_eq (xs : GoString) :
    ∀ a, decimalFrom a xs = a * 10 ^ xs.length + decimalFrom 0 xs := by
  induction xs with
  | nil => intro a; simp [decimalFrom]
  | cons c cs ih =>
    intro a
    rw [decimalFrom_cons, decimalFrom_cons, ih (a * 10 + (c - 48)), ih (0 * 10 + (c - 48))]
    simp only [List.length_cons, pow_succ]
    ring

theorem formatBits_spec (fuel : Nat) :
    ∀ n acc, n < 10 ^ fuel → allDigits acc = true →
      allDigits (formatBits fuel n acc) = true ∧
      decimalFrom 0 (formatBits fuel n acc) = n * 10 ^ acc.length + decimalFrom 0 acc := by
  induction fuel with
  | zero =>
    intro n acc hn hacc
    have : n = 0 := by simpa using hn
    subst this
    simp [formatBits, hacc]
  | succ fuel ih =>
    intro n acc hn hacc
    rw [formatBits]
    by_cases h10 : n < 10
    · simp only [h10, if_true]
      constructor
      · rw [allDigits_cons]
        exact ⟨by omega, hacc⟩
      · rw [decimalFrom_cons, decimalFrom_eq]
        have : 0 * 10 + (48 + n - 48) = n := by omega
        rw [this]
    · simp only [h10, if_false]
      have hdiv : n / 10 < 10 ^ fuel := by
        rw [pow_succ] at hn
        omega
      have hacc2 : allDigits ((48 + n % 10) :: acc) = true := by
        rw [allDigits_cons]
        exact ⟨by omega, hacc⟩
      obtain ⟨h1, h2⟩ := ih (n / 10) ((48 + n % 10) :: acc) hdiv hacc2
      refine ⟨h1, ?_⟩
      rw [h2, decimalFrom_cons, decimalFrom_eq acc (0 * 10 + (48 + n % 10 - 48))]
      have e1 : 0 * 10 + (48 + n % 10 - 48) = n % 10 := by omega
      rw [e1]
      simp only [List.length_cons, pow_succ]
      have e2 : n = n / 10 * 10 + n % 10 := by omega
      generalize 10 ^ acc.length = P
      generalize decimalFrom 0 acc = D
      calc n / 10 * (P * 10) + (n % 10 * P + D)
          = (n / 10 * 10 + n % 10) * P + D := by ring
        _ = n * P + D := by rw [← e2]

theorem formatBits_ne_nil (fuel n : Nat) (acc : GoString) :
    formatBits (fuel + 1) n acc ≠ [] := by
  induction fuel generalizing n acc with
  | zero =>
    rw [formatBits]
    split_ifs
    · simp
    · simp [formatBits]
  | succ fuel ih =>
    rw [formatBits]
    split_ifs
    · simp
    · exact ih _ _

theorem allDigits_head (s : GoString) (h : allDigits s = true) :
    s.head? ≠ some 43 ∧ s.head? ≠ some 45 := by
  cases s with
  | nil => simp
  | cons c cs =>
    rw [allDigits_cons] at h
    simp only [List.head?_cons, ne_eq, Option.some.injEq]
    omega

/-- Formatting an `int64` and reading it back gives the same integer. -/
theorem decimalInt64_formatInt (x : Int) (h1 : -9223372036854775808 ≤ x)
    (h2 : x ≤ 9223372036854775807) : decimalInt64 (FormatInt x) = some x := by
  unfold FormatInt
  by_cases hx : x < 0
  · simp only [hx, if_true]
    obtain ⟨hd, hv⟩ := formatBits_spec 20 (-x).toNat [] (by omega) rfl
    have hne := formatBits_ne_nil 19 (-x).toNat []
    unfold decimalInt64
    simp only [List.head?_cons, List.tail_cons, or_true, if_true, hne, hd, ne_eq,
      not_false_eq_true, and_self, decide_True, hv]
    simp only [List.length_nil, pow_zero, mul_one, decimalFrom, List.foldl_nil, add_zero]
    have : -((↑(-x).toNat : Int)) = x := by omega
    rw [this]
    simp [h1, h2]
  · simp only [hx, if_false]
    obtain ⟨hd, hv⟩ := formatBits_spec 20 x.toNat [] (by omega) rfl
    have hne := formatBits_ne_nil 19 x.toNat []
    obtain ⟨hh1, hh2⟩ := allDigits_head _ hd
    unfold decimalInt64
    simp only [hh1, hh2, or_self, if_false, hne, hd, ne_eq, not_false_eq_true, and_self,
      decide_False, if_true, hv]
    simp only [List.length_nil, pow_zero, mul_one, decimalFrom, List.foldl_nil, add_zero]
    have : ((x.toNat : Nat) : Int) = x := by omega
    simp [this, h1, h2]
theorem secondsToDuration_exact (n : Int) (h1 : -9223372036 ≤ n) (h2 : n ≤ 9223372036) :
    secondsToDuration n = n * 1000000000 := by
  unfold secondsToDuration
  exact wrap64_of_range _ (by omega) (by omega)

theorem add_seconds (now : Time) (n : Int) (h1 : -9223372036 ≤ n) (h2 : n ≤ 9223372036)
    (hn0 : 0 ≤ now.nsec) (hn1 : now.nsec < 1000000000)
    (he1 : -4611686018427387904 ≤ now.ext) (he2 : now.ext ≤ 4611686018427387904) :
    now.Add (secondsToDuration n) = ⟨now.ext + n, now.nsec⟩ := by
  rw [secondsToDuration_exact n h1 h2]
  unfold Time.Add
  have hd : (n * 1000000000).tdiv 1000000000 = n := Int.mul_tdiv_cancel n (by decide)
  have hm : (n * 1000000000).tmod 1000000000 = 0 := Int.mul_tmod_left n 1000000000
  simp only [hd, hm, add_zero]
  have c1 : ¬ (now.nsec ≥ 1000000000) := by omega
  have c2 : ¬ (now.nsec < 0) := by omega
  simp only [c1, c2, if_false]
  unfold Time.addSec
  have hw : wrap64 (now.ext + n) = now.ext + n := wrap64_of_range _ (by omega) (by omega)
  simp only [hw]
  have hb : decide (now.ext + n > now.ext) = decide (n > 0) := by
    by_cases hpos : n > 0
    · have : now.ext + n > now.ext := by omega
      simp [hpos, this]
    · have : ¬ (now.ext + n > now.ext) := by omega
      simp [hpos, this]
  simp only [hb, if_true]

/-- Within the range of `time.Duration` the expiry is exact: for a TTL of `n`
seconds with `|n| ≤ 9223372036`, a successful `setAccessTokenToCache` at clock
`now` stores the expiry `now.Unix + n`, and a later read returns the token as
long as the read time is not later than that second. -/
theorem setAccessTokenToCache_in_range (cache : Cache) (now : Time) (key : GoString)
    (data : M) (t ttl : GoString) (n : Int)
    (ht : tokenField data = some t) (httl : ttlField data = some ttl)
    (hn : decimalInt64 ttl = some n)
    (h1 : -9223372036 ≤ n) (h2 : n ≤ 9223372036)
    (hn0 : 0 ≤ now.nsec) (hn1 : now.nsec < 1000000000)
    (he1 : -4611686018427387904 ≤ now.ext) (he2 : now.ext ≤ 4611686018427387904) :
    (setAccessTokenToCache cache now key data).1 = (t, none) ∧
    ((setAccessTokenToCache cache now key data).2 key).map expiresAt =
      some (some (now.Unix + n)) ∧
    ∀ read : Time, 0 ≤ read.nsec → read.nsec < 1000000000 →
      read.unixNano ≤ (now.Unix + n) * 1000000000 →
      getAccessTokenFromCache (setAccessTokenToCache cache now key data).2 read key = t := by
  have hp := (parseInt_ok_iff ttl n).2 hn
  have hdef : setAccessTokenToCache cache now key data =
      ((t, none), fun k => if k = key then
        some (cacheRecord t (FormatInt (now.Add (secondsToDuration n)).Unix)) else cache k) := by
    have : setAccessTokenToCache cache now key data =
      (match tokenField data with
        | none => (([], some .accessTokenUndefined), cache)
        | some accessToken =>
          match ttlField data with
          | none => (([], some .expiresInUndefined), cache)
          | some expStr =>
            match ParseInt expStr with
            | .error err => (([], some err), cache)
            | .ok expInt =>
              ((accessToken, none),
                fun k => if k = key then
                  some (cacheRecord accessToken
                    (FormatInt (now.Add (secondsToDuration expInt)).Unix))
                else cache k)) := rfl
    rw [this, ht, httl]
    simp only [hp]
  have hunix : (now.Add (secondsToDuration n)).Unix = now.Unix + n := by
    rw [add_seconds now n h1 h2 hn0 hn1 he1 he2]
    unfold Time.Unix
    simp only
    rw [wrap64_of_range _ (by unfold unixToInternal; omega) (by unfold unixToInternal; omega),
      wrap64_of_range _ (by unfold unixToInternal; omega) (by unfold unixToInternal; omega)]
    omega
  have hU : now.Unix = now.ext - unixToInternal := by
    unfold Time.Unix
    exact wrap64_of_range _ (by unfold unixToInternal; omega) (by unfold unixToInternal; omega)
  have hexp : expiresAt (cacheRecord t (FormatInt (now.Unix + n))) = some (now.Unix + n) := by
    unfold expiresAt cacheRecord
    have hk : lit "expired_at" ≠ lit "access_token" := by decide
    simp only [hk, if_false, if_true]
    exact decimalInt64_formatInt _ (by rw [hU]; unfold unixToInternal; omega)
      (by rw [hU]; unfold unixToInternal; omega)
  rw [hdef, hunix]
  refine ⟨rfl, by simp [hexp], ?_⟩
  intro read hr0 hr1 hle
  rw [getAccessTokenFromCache_of_record _ read key
    (cacheRecord t (FormatInt (now.Unix + n))) (now.Unix + n) t (by simp) hexp
    (by simp [cacheRecord]) hr0 hr1
    (by rw [hU]; unfold unixToInternal; omega) (by rw [hU]; unfold unixToInternal; omega)]
  simp [hle]
/-! ## Token acquisition -/

theorem makeRequest_cache (env : Env) (w : World) (uri : GoString) (bodyMap headers : M) :
    (makeRequest env w uri bodyMap headers).2.cache = w.cache := by
  unfold makeRequest
  dsimp only
  split
  · rfl
  · split
    · rfl
    · split
      · rfl
      · split
        · split <;> rfl
        · rfl

theorem makeRequest_signs (env : Env) (w : World) (uri : GoString) (bodyMap headers : M) :
    (makeRequest env w uri bodyMap headers).2.signs = w.signs := by
  unfold makeRequest
  dsimp only
  split
  · rfl
  · split
    · rfl
    · split
      · rfl
      · split
        · split <;> rfl
        · rfl

theorem setAccessTokenToCache_eq (cache : Cache) (now : Time) (key : GoString) (data : M) :
    setAccessTokenToCache cache now key data =
      (match tokenField data with
        | none => (([], some .accessTokenUndefined), cache)
        | some accessToken =>
          match ttlField data with
          | none => (([], some .expiresInUndefined), cache)
          | some expStr =>
            match ParseInt expStr with
            | .error err => (([], some err), cache)
            | .ok expInt =>
              ((accessToken, none), Cache.store cache key (newRecord now accessToken expInt))) :=
  rfl

theorem setAccessTokenToCache_of_parses (cache : Cache) (now : Time) (key : GoString)
    (data : M) (t : GoString) (n : Int) (ht : tokenField data = some t)
    (httl : ∃ ttl, ttlField data = some ttl ∧ decimalInt64 ttl = some n) :
    setAccessTokenToCache cache now key data =
      ((t, none), Cache.store cache key (newRecord now t n)) := by
  obtain ⟨ttl, h1, h2⟩ := httl
  have hp := (parseInt_ok_iff ttl n).2 h2
  rw [setAccessTokenToCache_eq, ht, h1]
  simp only [hp]

theorem setAccessTokenToCache_frame (cache : Cache) (now : Time) (key : GoString) (data : M) :
    (∀ k, k ≠ key → (setAccessTokenToCache cache now key data).2 k = cache k) ∧
    ((setAccessTokenToCache cache now key data).1.2 ≠ none →
      (setAccessTokenToCache cache now key data).2 = cache) ∧
    ((setAccessTokenToCache cache now key data).1.2 = none →
      ∃ rec, (setAccessTokenToCache cache now key data).2 key = some rec ∧
        rec (lit "access_token") = some (setAccessTokenToCache cache now key data).1.1) := by
  rw [setAccessTokenToCache_eq]
  cases tokenField data with
  | none => simp
  | some t =>
    cases ttlField data with
    | none => simp
    | some ttl =>
      cases hp : ParseInt ttl with
      | error e => simp [hp]
      | ok n =>
        simp only [hp]
        refine ⟨?_, by simp, ?_⟩
        · intro k hk
          simp [Cache.store, hk]
        · intro _
          exact ⟨newRecord now t n, by simp [Cache.store], by simp [newRecord, cacheRecord]⟩

theorem bni_getAccessToken_hit (env : Env) (c : Bni) (w : World)
    (h : getAccessTokenFromCache w.cache (env.now w.step) (lit "bni") ≠ []) :
    c.getAccessToken env w =
      ((getAccessTokenFromCache w.cache (env.now w.step) (lit "bni"), none), w.tick) := by
  unfold Bni.getAccessToken
  simp only [h, ne_eq, not_false_eq_true, if_true]

theorem bni_getAccessToken_miss (env : Env) (c : Bni) (w : World)
    (h : getAccessTokenFromCache w.cache (env.now w.step) (lit "bni") = []) :
    c.getAccessToken env w =
      (match makeRequest env w.tick (c.tokenRequest env).uri (c.tokenRequest env).bodyMap
          (c.tokenRequest env).headers with
        | (data, w2) =>
          match data.Err with
          | some err => (([], some err), w2)
          | none =>
            if (index data.Data (lit "access_token")).isNone then
              (([], some (.bni (GetValue data.Data (lit "code"))
                (GetValue data.Data (lit "error")))), w2)
            else
              match setAccessTokenToCache w2.cache (env.now w2.step) (lit "bni")
                  data.Data with
              | (r, cache) => (r, ⟨cache, w2.step + 1, w2.trace⟩)) := by
  unfold Bni.getAccessToken
  simp only [h, ne_eq, not_true_eq_false, if_false]
  rfl

/-- What a run of `Bni.getAccessToken` leaves behind. -/
theorem bni_getAccessToken_effects (env : Env) (c : Bni) (w : World) :
    ((c.getAccessToken env w).2.requests = w.requests ∨
      (getAccessTokenFromCache w.cache (env.now w.step) (lit "bni") = [] ∧
        (c.getAccessToken env w).2.requests = c.tokenRequest env :: w.requests)) ∧
    (∀ k, k ≠ lit "bni" → (c.getAccessToken env w).2.cache k = w.cache k) ∧
    ((c.getAccessToken env w).1.2 ≠ none → (c.getAccessToken env w).2.cache = w.cache) ∧
    (c.getAccessToken env w).2.signs = w.signs ∧
    (getAccessTokenFromCache w.cache (env.now w.step) (lit "bni") = [] →
      (c.getAccessToken env w).2.requests = c.tokenRequest env :: w.requests) := by
  by_cases h : getAccessTokenFromCache w.cache (env.now w.step) (lit "bni") = []
  · rw [bni_getAccessToken_miss env c w h]
    have hreq := makeRequest_requests env w.tick (c.tokenRequest env).uri
      (c.tokenRequest env).bodyMap (c.tokenRequest env).headers
    have hcache := makeRequest_cache env w.tick (c.tokenRequest env).uri
      (c.tokenRequest env).bodyMap (c.tokenRequest env).headers
    have hsign := makeRequest_signs env w.tick (c.tokenRequest env).uri
      (c.tokenRequest env).bodyMap (c.tokenRequest env).headers
    rcases hm : makeRequest env w.tick (c.tokenRequest env).uri
      (c.tokenRequest env).bodyMap (c.tokenRequest env).headers with ⟨⟨d, e⟩, w2⟩
    rw [hm] at hreq hcache hsign
    simp only at hreq hcache hsign
    have hreq2 : w2.requests = c.tokenRequest env :: w.requests := hreq
    have hcache2 : w2.cache = w.cache := hcache
    have hsign2 : w2.signs = w.signs := hsign
    cases e with
    | some err =>
      simp only
      exact ⟨Or.inr ⟨h, hreq2⟩, fun k _ => by rw [hcache2], fun _ => hcache2, hsign2,
        fun _ => hreq2⟩
    | none =>
      simp only
      split_ifs
      · exact ⟨Or.inr ⟨h, hreq2⟩, fun k _ => by rw [hcache2], fun _ => hcache2, hsign2,
          fun _ => hreq2⟩
      · obtain ⟨f1, f2, _⟩ := setAccessTokenToCache_frame w2.cache (env.now w2.step)
          (lit "bni") d
        refine ⟨Or.inr ⟨h, hreq2⟩, ?_, ?_, hsign2, fun _ => hreq2⟩
        · intro k hk
          exact (f1 k hk).trans (by rw [hcache2])
        · intro hne
          exact (f2 hne).trans hcache2
  · rw [bni_getAccessToken_hit env c w h]
    exact ⟨Or.inl rfl, fun _ _ => rfl, fun _ => rfl, rfl, fun h2 => absurd h2 h⟩

/-- On a miss, a BNI token response that parses is stored and its token
returned. -/
theorem bni_getAccessToken_parses (env : Env) (c : Bni) (w : World)
    (h : getAccessTokenFromCache w.cache (env.now w.step) (lit "bni") = [])
    (data : responseData) (w2 : World)
    (hm : makeRequest env w.tick (c.tokenRequest env).uri (c.tokenRequest env).bodyMap
      (c.tokenRequest env).headers = (data, w2))
    (t : GoString) (n : Int) (hp : Parses data t n)
    (hk : (index data.Data (lit "access_token")).isSome = true) :
    c.getAccessToken env w =
      ((t, none), ⟨Cache.store w.cache (lit "bni") (newRecord (env.now w2.step) t n),
        w2.step + 1, w2.trace⟩) := by
  rw [bni_getAccessToken_miss env c w h, hm]
  have hcache := makeRequest_cache env w.tick (c.tokenRequest env).uri
    (c.tokenRequest env).bodyMap (c.tokenRequest env).headers
  rw [hm] at hcache
  have hcache2 : w2.cache = w.cache := hcache
  obtain ⟨he, ht, httl⟩ := hp
  have hk2 : (index data.Data (lit "access_token")).isNone = false := by
    cases hx : index data.Data (lit "access_token") with
    | none => rw [hx] at hk; cases hk
    | some v => rfl
  simp only [he, hk2, Bool.false_eq_true, if_false]
  rw [setAccessTokenToCache_of_parses w2.cache (env.now w2.step) (lit "bni") data.Data t n
    ht httl, hcache2]

theorem getPrivateKey_world (env : Env) (mpm : BriMpmDynamic) (w w1 : World)
    (r : Except Error GoString) (h : mpm.getPrivateKey env w = .ret (r, w1)) :
    w1 = w.tick := by
  unfold BriMpmDynamic.getPrivateKey at h
  split at h
  · simp only [Outcome.ret.injEq, Prod.mk.injEq] at h
    exact h.2.symm
  · split at h
    · cases h
    · simp only [Outcome.ret.injEq, Prod.mk.injEq] at h
      exact h.2.symm

theorem getSignature_effects (env : Env) (mpm : BriMpmDynamic) (w w1 : World)
    (s : GoString) (r : GoString × Option Error)
    (h : mpm.getSignature env w s = .ret (r, w1)) :
    w1.cache = w.cache ∧ w1.requests = w.requests ∧ w1.signs = s :: w.signs := by
  unfold BriMpmDynamic.getSignature at h
  dsimp only at h
  split at h
  · cases h
  · rename_i err w0 hpk
    have := getPrivateKey_world env mpm _ _ _ hpk
    simp only [Outcome.ret.injEq, Prod.mk.injEq] at h
    obtain ⟨_, hw⟩ := h
    subst hw
    subst this
    exact ⟨rfl, rfl, rfl⟩
  · rename_i pk w0 hpk
    have := getPrivateKey_world env mpm _ _ _ hpk
    simp only [Outcome.ret.injEq, Prod.mk.injEq] at h
    obtain ⟨_, hw⟩ := h
    subst hw
    subst this
    exact ⟨rfl, rfl, rfl⟩

theorem bri_getAccessToken_hit (env : Env) (c : BriMpmDynamic) (w : World)
    (h : getAccessTokenFromCache w.cache (env.now w.step) (lit "briMpm") ≠ []) :
    c.getAccessToken env w =
      .ret ((getAccessTokenFromCache w.cache (env.now w.step) (lit "briMpm"), none),
        w.tick) := by
  unfold BriMpmDynamic.getAccessToken
  simp only [h, ne_eq, not_false_eq_true, if_true]

theorem bri_getAccessToken_miss (env : Env) (c : BriMpmDynamic) (w : World)
    (h : getAccessTokenFromCache w.cache (env.now w.step) (lit "briMpm") = []) :
    c.getAccessToken env w =
      (match c.getTimestamp env w.tick with
        | ((_, some err), w2) => .ret (([], some err), w2)
        | ((timestamp, none), w2) =>
          match c.getSignature env w2 (c.ClientID ++ lit "|" ++ timestamp) with
          | .panic => .panic
          | .ret ((_, some err), w3) => .ret (([], some err), w3)
          | .ret ((signature, none), w3) =>
            match makeRequest env w3 (c.tokenRequest timestamp signature).uri
                (c.tokenRequest timestamp signature).bodyMap
                (c.tokenRequest timestamp signature).headers with
            | (data, w4) =>
              match data.Err with
              | some err => .ret (([], some err), w4)
              | none =>
                if GetValue data.Data (lit "accessToken") = [] then
                  .ret (([], some (.briMpmDynamic (GetValue data.Data (lit "responseCode"))
                    (GetValue data.Data (lit "responseMessage")))), w4)
                else
                  match setAccessTokenToCache w4.cache (env.now w4.step) (lit "briMpm")
                      data.Data with
                  | (r, cache) => .ret (r, ⟨cache, w4.step + 1, w4.trace⟩)) := by
  unfold BriMpmDynamic.getAccessToken
  simp only [h, ne_eq, not_true_eq_false, if_false]
  rfl

/-- What a run of `BriMpmDynamic.getAccessToken` that returns leaves behind. -/
theorem bri_getAccessToken_effects (env : Env) (c : BriMpmDynamic) (w w5 : World)
    (r : GoString × Option Error) (hret : c.getAccessToken env w = .ret (r, w5)) :
    (w5.requests = w.requests ∨
      (getAccessTokenFromCache w.cache (env.now w.step) (lit "briMpm") = [] ∧
        ∃ ts sig, w5.requests = c.tokenRequest ts sig :: w.requests)) ∧
    (∀ k, k ≠ lit "briMpm" → w5.cache k = w.cache k) ∧
    (r.2 ≠ none → w5.cache = w.cache) ∧
    (w5.signs = w.signs ∨
      getAccessTokenFromCache w.cache (env.now w.step) (lit "briMpm") = []) ∧
    (w5.requests = w.requests → r.2 = none →
      getAccessTokenFromCache w.cache (env.now w.step) (lit "briMpm") ≠ []) := by
  by_cases h : getAccessTokenFromCache w.cache (env.now w.step) (lit "briMpm") = []
  · rw [bri_getAccessToken_miss env c w h] at hret
    have hts := getTimestamp_world env c w.tick
    rcases hgt : c.getTimestamp env w.tick with ⟨⟨ts, _ | terr⟩, w2⟩
    · rw [hgt] at hret hts
      simp only at hret hts
      have hw2 : w2 = w.tick.tick := hts
      cases hgs : c.getSignature env w2 (c.ClientID ++ lit "|" ++ ts) with
      | panic =>
        rw [hgs] at hret
        cases hret
      | ret x =>
        rcases x with ⟨⟨sig, _ | serr⟩, w3⟩
        · rw [hgs] at hret
          simp only at hret
          obtain ⟨sc, sr, _⟩ := getSignature_effects env c w2 w3 _ _ hgs
          have hc3 : w3.cache = w.cache := by rw [sc, hw2]; rfl
          have hr3 : w3.requests = w.requests := by rw [sr, hw2]; rfl
          have hreq := makeRequest_requests env w3 (c.tokenRequest ts sig).uri
            (c.tokenRequest ts sig).bodyMap (c.tokenRequest ts sig).headers
          have hcache := makeRequest_cache env w3 (c.tokenRequest ts sig).uri
            (c.tokenRequest ts sig).bodyMap (c.tokenRequest ts sig).headers
          rcases hm : makeRequest env w3 (c.tokenRequest ts sig).uri
            (c.tokenRequest ts sig).bodyMap (c.tokenRequest ts sig).headers
            with ⟨⟨d, e⟩, w4⟩
          rw [hm] at hreq hcache hret
          simp only at hreq hcache hret
          have hreq4 : w4.requests = c.tokenRequest ts sig :: w.requests := by
            rw [← hr3]; exact hreq
          have hcache4 : w4.cache = w.cache := hcache.trans hc3
          have hne : ∀ (l : List Request), ¬ (c.tokenRequest ts sig :: l = l) := by
            intro l hl
            have := congrArg List.length hl
            simp at this
          cases e with
          | some err =>
            simp only [Outcome.ret.injEq, Prod.mk.injEq] at hret
            obtain ⟨hr, hw⟩ := hret
            subst hw
            subst hr
            exact ⟨Or.inr ⟨h, ts, sig, hreq4⟩, fun k _ => by rw [hcache4], fun _ => hcache4,
              Or.inr h, fun hx => absurd (hreq4.symm.trans hx) (hne _)⟩
          | none =>
            simp only at hret
            split_ifs at hret
            · simp only [Outcome.ret.injEq, Prod.mk.injEq] at hret
              obtain ⟨hr, hw⟩ := hret
              subst hw
              subst hr
              exact ⟨Or.inr ⟨h, ts, sig, hreq4⟩, fun k _ => by rw [hcache4],
                fun _ => hcache4, Or.inr h, fun hx => absurd (hreq4.symm.trans hx) (hne _)⟩
            · simp only [Outcome.ret.injEq, Prod.mk.injEq] at hret
              obtain ⟨hr, hw⟩ := hret
              subst hw
              subst hr
              obtain ⟨f1, f2, _⟩ := setAccessTokenToCache_frame w4.cache (env.now w4.step)
                (lit "briMpm") d
              refine ⟨Or.inr ⟨h, ts, sig, hreq4⟩, ?_, ?_, Or.inr h,
                fun hx => absurd (hreq4.symm.trans hx) (hne _)⟩
              · intro k hk
                exact (f1 k hk).trans (by rw [hcache4])
              · intro hne2
                exact (f2 hne2).trans hcache4
        · rw [hgs] at hret
          simp only [Outcome.ret.injEq, Prod.mk.injEq] at hret
          obtain ⟨hr, hw⟩ := hret
          subst hw
          subst hr
          obtain ⟨sc, sr, _⟩ := getSignature_effects env c w2 w3 _ _ hgs
          have hc3 : w3.cache = w.cache := by rw [sc, hw2]; rfl
          have hr3 : w3.requests = w.requests := by rw [sr, hw2]; rfl
          exact ⟨Or.inl hr3, fun k _ => by rw [hc3], fun _ => hc3, Or.inr h,
            fun _ hx => by simp at hx⟩
    · rw [hgt] at hret hts
      simp only [Outcome.ret.injEq, Prod.mk.injEq] at hret hts
      obtain ⟨hr, hw⟩ := hret
      subst hw
      subst hr
      have hw2 : w2 = w.tick.tick := hts
      subst hw2
      exact ⟨Or.inl rfl, fun _ _ => rfl, fun _ => rfl, Or.inl rfl, fun _ hx => by simp at hx⟩
  · rw [bri_getAccessToken_hit env c w h] at hret
    simp only [Outcome.ret.injEq, Prod.mk.injEq] at hret
    obtain ⟨hr, hw⟩ := hret
    subst hw
    subst hr
    exact ⟨Or.inl rfl, fun _ _ => rfl, fun _ => rfl, Or.inl rfl, fun _ _ => h⟩

/-- On a miss, once timestamp and signature are made, the BRI token request is
issued, and a token response that parses is stored and its token returned. -/
theorem bri_getAccessToken_parses (env : Env) (c : BriMpmDynamic) (w w2 w3 w4 : World)
    (h : getAccessTokenFromCache w.cache (env.now w.step) (lit "briMpm") = [])
    (ts sig : GoString)
    (hgt : c.getTimestamp env w.tick = ((ts, none), w2))
    (hgs : c.getSignature env w2 (c.ClientID ++ lit "|" ++ ts) = .ret ((sig, none), w3))
    (data : responseData)
    (hm : makeRequest env w3 (c.tokenRequest ts sig).uri (c.tokenRequest ts sig).bodyMap
      (c.tokenRequest ts sig).headers = (data, w4)) :
    w4.requests = c.tokenRequest ts sig :: w.requests ∧
    (∃ r w5, c.getAccessToken env w = .ret (r, w5) ∧ w5.requests = w4.requests) ∧
    ∀ t n, Parses data t n → GetValue data.Data (lit "accessToken") ≠ [] →
      c.getAccessToken env w =
        .ret ((t, none), ⟨Cache.store w.cache (lit "briMpm") (newRecord (env.now w4.step) t n),
          w4.step + 1, w4.trace⟩) := by
  have hts := getTimestamp_world env c w.tick
  rw [hgt] at hts
  have hw2 : w2 = w.tick.tick := hts
  obtain ⟨sc, sr, _⟩ := getSignature_effects env c w2 w3 _ _ hgs
  have hc3 : w3.cache = w.cache := by rw [sc, hw2]; rfl
  have hr3 : w3.requests = w.requests := by rw [sr, hw2]; rfl
  have hreq := makeRequest_requests env w3 (c.tokenRequest ts sig).uri
    (c.tokenRequest ts sig).bodyMap (c.tokenRequest ts sig).headers
  have hcache := makeRequest_cache env w3 (c.tokenRequest ts sig).uri
    (c.tokenRequest ts sig).bodyMap (c.tokenRequest ts sig).headers
  rw [hm] at hreq hcache
  have hreq4 : w4.requests = c.tokenRequest ts sig :: w.requests := by
    rw [← hr3]; exact hreq
  have hcache4 : w4.cache = w.cache := hcache.trans hc3
  refine ⟨hreq4, ?_, ?_⟩
  · rw [bri_getAccessToken_miss env c w h, hgt]
    simp only [hgs, hm]
    rcases data with ⟨d, e⟩
    cases e with
    | some err => exact ⟨_, _, rfl, rfl⟩
    | none =>
      simp only
      split_ifs
      · exact ⟨_, _, rfl, rfl⟩
      · exact ⟨_, _, rfl, rfl⟩
  · intro t n hp hk
    obtain ⟨he, ht, httl⟩ := hp
    rw [bri_getAccessToken_miss env c w h, hgt]
    simp only [hgs, hm, he, hk, if_false]
    rw [setAccessTokenToCache_of_parses w4.cache (env.now w4.step) (lit "briMpm")
      data.Data t n ht httl, hcache4]

/-- On a miss, a failed BRI timestamp ends the run: the error is returned and
nothing was requested, signed or stored. -/
theorem bri_getAccessToken_timestamp_fails (env : Env) (c : BriMpmDynamic) (w w2 : World)
    (h : getAccessTokenFromCache w.cache (env.now w.step) (lit "briMpm") = [])
    (ts : GoString) (e : Error)
    (hgt : c.getTimestamp env w.tick = ((ts, some e), w2)) :
    c.getAccessToken env w = .ret (([], some e), w2) ∧ w2.cache = w.cache ∧
      w2.trace = w.trace := by
  have hts := getTimestamp_world env c w.tick
  rw [hgt] at hts
  have hw2 : w2 = w.tick.tick := hts
  subst hw2
  refine ⟨?_, rfl, rfl⟩
  rw [bri_getAccessToken_miss env c w h, hgt]

/-- On a miss, a failed BRI signature ends the run: the error is returned, one
signature was attempted, and nothing was requested or stored; a panic of the
signer is a panic of the run. -/
theorem bri_getAccessToken_signature_fails (env : Env) (c : BriMpmDynamic) (w w2 : World)
    (h : getAccessTokenFromCache w.cache (env.now w.step) (lit "briMpm") = [])
    (ts : GoString)
    (hgt : c.getTimestamp env w.tick = ((ts, none), w2)) :
    (c.getSignature env w2 (c.ClientID ++ lit "|" ++ ts) = .panic →
      c.getAccessToken env w = .panic) ∧
    (∀ sig e w3,
      c.getSignature env w2 (c.ClientID ++ lit "|" ++ ts) = .ret ((sig, some e), w3) →
      c.getAccessToken env w = .ret (([], some e), w3) ∧ w3.cache = w.cache ∧
        w3.requests = w.requests ∧ w3.signs = (c.ClientID ++ lit "|" ++ ts) :: w.signs) := by
  have hts := getTimestamp_world env c w.tick
  rw [hgt] at hts
  have hw2 : w2 = w.tick.tick := hts
  constructor
  · intro hgs
    rw [bri_getAccessToken_miss env c w h, hgt]
    simp only [hgs]
  · intro sig e w3 hgs
    obtain ⟨sc, sr, ss⟩ := getSignature_effects env c w2 w3 _ _ hgs
    refine ⟨?_, ?_, ?_, ?_⟩
    · rw [bri_getAccessToken_miss env c w h, hgt]
      simp only [hgs]
    · rw [sc, hw2]; rfl
    · rw [sr, hw2]; rfl
    · rw [ss, hw2]; rfl

/-- A run of `Bni.getAccessToken` that succeeds on a miss has stored a record
with the returned token under "bni". -/
theorem bni_getAccessToken_stores (env : Env) (c : Bni) (w : World)
    (h : getAccessTokenFromCache w.cache (env.now w.step) (lit "bni") = [])
    (hok : (c.getAccessToken env w).1.2 = none) :
    ∃ rec, (c.getAccessToken env w).2.cache (lit "bni") = some rec ∧
      rec (lit "access_token") = some (c.getAccessToken env w).1.1 := by
  rw [bni_getAccessToken_miss env c w h] at hok ⊢
  generalize makeRequest env w.tick (c.tokenRequest env).uri
    (c.tokenRequest env).bodyMap (c.tokenRequest env).headers = x at hok ⊢
  rcases x with ⟨⟨d, e⟩, w2⟩
  cases e with
  | some err => simp at hok
  | none =>
    simp only at hok ⊢
    split_ifs at hok ⊢
    exact (setAccessTokenToCache_frame w2.cache (env.now w2.step) (lit "bni") d).2.2 hok

/-- A run of `BriMpmDynamic.getAccessToken` that succeeds on a miss has stored a
record with the returned token under "briMpm". -/
theorem bri_getAccessToken_stores (env : Env) (c : BriMpmDynamic) (w w5 : World)
    (r : GoString × Option Error)
    (h : getAccessTokenFromCache w.cache (env.now w.step) (lit "briMpm") = [])
    (hret : c.getAccessToken env w = .ret (r, w5)) (hok : r.2 = none) :
    ∃ rec, w5.cache (lit "briMpm") = some rec ∧ rec (lit "access_token") = some r.1 := by
  rw [bri_getAccessToken_miss env c w h] at hret
  generalize c.getTimestamp env w.tick = y at hret
  rcases y with ⟨⟨ts, _ | terr⟩, w2⟩
  · simp only at hret
    cases hgs : c.getSignature env w2 (c.ClientID ++ lit "|" ++ ts) with
    | panic =>
      rw [hgs] at hret
      cases hret
    | ret x =>
      rcases x with ⟨⟨sig, _ | serr⟩, w3⟩
      · rw [hgs] at hret
        simp only at hret
        generalize makeRequest env w3 (c.tokenRequest ts sig).uri
          (c.tokenRequest ts sig).bodyMap (c.tokenRequest ts sig).headers = x at hret
        rcases x with ⟨⟨d, e⟩, w4⟩
        cases e with
        | some err =>
          simp only [Outcome.ret.injEq, Prod.mk.injEq] at hret
          obtain ⟨hr, _⟩ := hret
          subst hr
          simp at hok
        | none =>
          simp only at hret
          split_ifs at hret
          · simp only [Outcome.ret.injEq, Prod.mk.injEq] at hret
            obtain ⟨hr, _⟩ := hret
            subst hr
            simp at hok
          · simp only [Outcome.ret.injEq, Prod.mk.injEq] at hret
            obtain ⟨hr, hw⟩ := hret
            subst hw
            subst hr
            exact (setAccessTokenToCache_frame w4.cache (env.now w4.step)
              (lit "briMpm") d).2.2 hok
      · rw [hgs] at hret
        simp only [Outcome.ret.injEq, Prod.mk.injEq] at hret
        obtain ⟨hr, _⟩ := hret
        subst hr
        simp at hok
  · simp only [Outcome.ret.injEq, Prod.mk.injEq] at hret
    obtain ⟨hr, _⟩ := hret
    subst hr
    simp at hok

/-- C11 (as stated, refuted): the cache of a fresh process holds no usable token
for "briMpm", yet `BriMpmDynamic.getAccessToken` issues no token request when
the private-key file cannot be read: signing is attempted once, fails, and the
error is returned. -/
theorem bri_token_request_not_issued :
    freshWorld.cache (lit "briMpm") = none ∧
    getAccessTokenFromCache freshWorld.cache (keylessEnv.now freshWorld.step)
      (lit "briMpm") = [] ∧
    acquired (Provider.getAccessToken keylessEnv (.briMpmDynamic exampleBri) freshWorld) =
      some (([], some (.lib 2)), [], 1) := by
  refine ⟨rfl, by decide, by decide⟩

theorem cons_ne_self (q : Request) (l : List Request) : q :: l ≠ l := by
  intro hl
  have := congrArg List.length hl
  simp at this

/-- C11 (amended): for each provider, with the library calls behind the
transport arbitrary.  A usable token is what `getAccessTokenFromCache` finds
under the key of the provider ("bni", "briMpm"): a non-empty token of a record
whose expiry is not before the clock reading.
When a usable token is cached, `getAccessToken` returns it with a nil error and
leaves cache and trace as they were: no transport call, no signing.  A run
makes at most one call of `makeRequest`, to the token endpoint of the provider,
and only when no usable token is cached; it signs only then; it touches no
cache entry of another key and no entry at all when it fails; when it succeeds
without a token request, the token came from the cache; and when it succeeds
with no usable token cached, the cache holds under the key of the provider a
record with the returned token.
When no usable token is cached, the BNI client always issues its token request;
the BRI client issues it once its timestamp and its signature are made.  In
both, a token response that parses and carries the token field of the provider
is stored under the key of that provider and its token returned.
When no usable token is cached and the BRI timestamp fails, that error is
returned with cache and trace as they were: no request, no signing.  When the
timestamp is made and the signature fails, that error is returned after the one
signing attempt, with no request and the cache as it was; when the signer
panics, the run panics. -/
theorem getAccessToken_spec (env : Env) (w : World) :
    (∀ p : Provider,
      (getAccessTokenFromCache w.cache (env.now w.step) p.cacheKey ≠ [] →
        p.getAccessToken env w =
          .ret ((getAccessTokenFromCache w.cache (env.now w.step) p.cacheKey, none),
            ⟨w.cache, w.step + 1, w.trace⟩)) ∧
      (∀ c e t, w.cache p.cacheKey = some c → expiresAt c = some e →
        c (lit "access_token") = some t → t ≠ [] →
        0 ≤ (env.now w.step).nsec → (env.now w.step).nsec < 1000000000 →
        -9223372036854775808 ≤ e + unixToInternal →
        e + unixToInternal ≤ 9223372036854775807 →
        (env.now w.step).unixNano ≤ e * 1000000000 →
        p.getAccessToken env w = .ret ((t, none), ⟨w.cache, w.step + 1, w.trace⟩)) ∧
      (∀ r w2, p.getAccessToken env w = .ret (r, w2) →
        (w2.requests = w.requests ∨
          (getAccessTokenFromCache w.cache (env.now w.step) p.cacheKey = [] ∧
            ∃ q, q.uri = p.tokenUri ∧ w2.requests = q :: w.requests)) ∧
        (∀ k, k ≠ p.cacheKey → w2.cache k = w.cache k) ∧
        (r.2 ≠ none → w2.cache = w.cache) ∧
        (w2.signs = w.signs ∨
          getAccessTokenFromCache w.cache (env.now w.step) p.cacheKey = []) ∧
        (w2.requests = w.requests → r.2 = none →
          getAccessTokenFromCache w.cache (env.now w.step) p.cacheKey ≠ []) ∧
        (getAccessTokenFromCache w.cache (env.now w.step) p.cacheKey = [] → r.2 = none →
          ∃ rec, w2.cache p.cacheKey = some rec ∧
            rec (lit "access_token") = some r.1))) ∧
    (∀ c : Bni, getAccessTokenFromCache w.cache (env.now w.step) (lit "bni") = [] →
      (c.getAccessToken env w).2.requests = c.tokenRequest env :: w.requests ∧
      ∀ data w2 t n,
        makeRequest env w.tick (c.tokenRequest env).uri (c.tokenRequest env).bodyMap
          (c.tokenRequest env).headers = (data, w2) →
        Parses data t n → (index data.Data (lit "access_token")).isSome = true →
        c.getAccessToken env w =
          ((t, none), ⟨Cache.store w.cache (lit "bni") (newRecord (env.now w2.step) t n),
            w2.step + 1, w2.trace⟩)) ∧
    (∀ c : BriMpmDynamic,
      getAccessTokenFromCache w.cache (env.now w.step) (lit "briMpm") = [] →
      ∀ ts sig w2 w3 data w4,
        c.getTimestamp env w.tick = ((ts, none), w2) →
        c.getSignature env w2 (c.ClientID ++ lit "|" ++ ts) = .ret ((sig, none), w3) →
        makeRequest env w3 (c.tokenRequest ts sig).uri (c.tokenRequest ts sig).bodyMap
          (c.tokenRequest ts sig).headers = (data, w4) →
        (∃ r w5, c.getAccessToken env w = .ret (r, w5) ∧
          w5.requests = c.tokenRequest ts sig :: w.requests) ∧
        ∀ t n, Parses data t n → GetValue data.Data (lit "accessToken") ≠ [] →
          c.getAccessToken env w =
            .ret ((t, none),
              ⟨Cache.store w.cache (lit "briMpm") (newRecord (env.now w4.step) t n),
                w4.step + 1, w4.trace⟩)) ∧
    (∀ c : BriMpmDynamic,
      getAccessTokenFromCache w.cache (env.now w.step) (lit "briMpm") = [] →
      (∀ ts e w2, c.getTimestamp env w.tick = ((ts, some e), w2) →
        c.getAccessToken env w = .ret (([], some e), w2) ∧ w2.cache = w.cache ∧
          w2.trace = w.trace) ∧
      (∀ ts w2, c.getTimestamp env w.tick = ((ts, none), w2) →
        (c.getSignature env w2 (c.ClientID ++ lit "|" ++ ts) = .panic →
          c.getAccessToken env w = .panic) ∧
        (∀ sig e w3,
          c.getSignature env w2 (c.ClientID ++ lit "|" ++ ts) = .ret ((sig, some e), w3) →
          c.getAccessToken env w = .ret (([], some e), w3) ∧ w3.cache = w.cache ∧
            w3.requests = w.requests ∧
            w3.signs = (c.ClientID ++ lit "|" ++ ts) :: w.signs))) := by
  have hit : ∀ p : Provider,
      getAccessTokenFromCache w.cache (env.now w.step) p.cacheKey ≠ [] →
        p.getAccessToken env w =
          .ret ((getAccessTokenFromCache w.cache (env.now w.step) p.cacheKey, none),
            ⟨w.cache, w.step + 1, w.trace⟩) := by
    intro p h
    cases p with
    | bni c =>
      simp only [Provider.getAccessToken, Provider.cacheKey] at h ⊢
      rw [bni_getAccessToken_hit env c w h]
      rfl
    | briMpmDynamic c =>
      simp only [Provider.getAccessToken, Provider.cacheKey] at h ⊢
      rw [bri_getAccessToken_hit env c w h]
      rfl
  refine ⟨fun p => ⟨hit p, ?_, ?_⟩, ?_, ?_, ?_⟩
  · intro c e t hc he ht hne hn0 hn1 hlo hhi hle
    have hget := getAccessTokenFromCache_of_record w.cache (env.now w.step) p.cacheKey
      c e t hc he ht hn0 hn1 hlo hhi
    simp only [hle, if_true] at hget
    have := hit p (by rw [hget]; exact hne)
    rw [hget] at this
    exact this
  · intro r w2 hret
    cases p with
    | bni c =>
      simp only [Provider.getAccessToken, Outcome.ret.injEq] at hret
      obtain ⟨e1, e2, e3, e4, e5⟩ := bni_getAccessToken_effects env c w
      rw [hret] at e1 e2 e3 e4 e5
      simp only [Provider.cacheKey, Provider.tokenUri]
      refine ⟨?_, e2, e3, Or.inl e4, ?_, ?_⟩
      · rcases e1 with e1 | ⟨h, e1⟩
        · exact Or.inl e1
        · exact Or.inr ⟨h, _, rfl, e1⟩
      · intro hx _ hmiss
        exact cons_ne_self _ _ ((e5 hmiss).symm.trans hx)
      · intro hmiss hok
        have hs := bni_getAccessToken_stores env c w hmiss
        rw [hret] at hs
        exact hs hok
    | briMpmDynamic c =>
      simp only [Provider.getAccessToken] at hret
      obtain ⟨e1, e2, e3, e4, e5⟩ := bri_getAccessToken_effects env c w w2 r hret
      simp only [Provider.cacheKey, Provider.tokenUri]
      refine ⟨?_, e2, e3, e4, e5, ?_⟩
      · rcases e1 with e1 | ⟨h, ts, sig, e1⟩
        · exact Or.inl e1
        · exact Or.inr ⟨h, _, rfl, e1⟩
      · intro hmiss hok
        exact bri_getAccessToken_stores env c w w2 r hmiss hret hok
  · intro c h
    refine ⟨(bni_getAccessToken_effects env c w).2.2.2.2 h, ?_⟩
    intro data w2 t n hm hp hk
    exact bni_getAccessToken_parses env c w h data w2 hm t n hp hk
  · intro c h ts sig w2 w3 data w4 hgt hgs hm
    obtain ⟨h1, ⟨r, w5, h2, h3⟩, h4⟩ :=
      bri_getAccessToken_parses env c w w2 w3 w4 h ts sig hgt hgs data hm
    exact ⟨⟨r, w5, h2, h3.trans h1⟩, h4⟩
  · intro c h
    refine ⟨?_, ?_⟩
    · intro ts e w2 hgt
      exact bri_getAccessToken_timestamp_fails env c w w2 h ts e hgt
    · intro ts w2 hgt
      exact bri_getAccessToken_signature_fails env c w w2 h ts hgt

/-- C11 (amended), at both clients.  BNI: with the token "tok" cached until Unix
second 2000000000 and the clock at 1700000000 the token is served from the
cache, cache and trace untouched; on a fresh process the token request is
issued.  BRI on a fresh process: with an unreadable key file the signing error
is returned and no request is made; with an unknown time zone the timestamp
error is returned with nothing requested or signed; with both in order the
token request is issued. -/
theorem getAccessToken_spec_witness :
    Provider.getAccessToken (exampleEnv (lit "qr")) (.bni exampleBni) warmWorld =
      .ret ((lit "tok", none), ⟨warmWorld.cache, 1, []⟩) ∧
    (exampleBni.getAccessToken (exampleEnv (lit "qr")) freshWorld).2.requests =
      [exampleBni.tokenRequest (exampleEnv (lit "qr"))] ∧
    (∃ w3, exampleBri.getAccessToken keylessEnv freshWorld =
        .ret (([], some (.lib 2)), w3) ∧ w3.requests = [] ∧
      w3.signs = [lit "client|2023-11-14T22:13:20Z"]) ∧
    (∃ w2, zonedBri.getAccessToken zonelessEnv freshWorld =
        .ret (([], some (.lib 4)), w2) ∧ w2.trace = []) ∧
    (∃ r w5, exampleBri.getAccessToken (exampleEnv (lit "qr")) freshWorld = .ret (r, w5) ∧
      w5.requests.map (fun q => q.uri) =
        [lit "https://bri.example/snap/v1.0/access-token/b2b"]) := by
  refine ⟨?_, ?_, ?_, ?_, ?_⟩
  · exact ((getAccessToken_spec (exampleEnv (lit "qr")) warmWorld).1 (.bni exampleBni)).2.1
      (cacheRecord (lit "tok") (lit "2000000000")) 2000000000 (lit "tok") rfl (by decide)
      (by decide) (by decide) (by decide) (by decide) (by decide) (by decide) (by decide)
  · exact ((getAccessToken_spec (exampleEnv (lit "qr")) freshWorld).2.1 exampleBni
      (by decide)).1
  · obtain ⟨h1, _, h3, h4⟩ :=
      (((getAccessToken_spec keylessEnv freshWorld).2.2.2 exampleBri (by decide)).2
        (lit "2023-11-14T22:13:20Z") _ rfl).2 [] (.lib 2) _ rfl
    exact ⟨_, h1, h3, h4⟩
  · obtain ⟨h1, _, h3⟩ :=
      ((getAccessToken_spec zonelessEnv freshWorld).2.2.2 zonedBri (by decide)).1
        [] (.lib 4) _ rfl
    exact ⟨_, h1, h3⟩
  · obtain ⟨⟨r, w5, h1, h2⟩, _⟩ :=
      (getAccessToken_spec (exampleEnv (lit "qr")) freshWorld).2.2.1 exampleBri (by decide)
        (lit "2023-11-14T22:13:20Z") _ _ _ _ _ rfl rfl rfl
    exact ⟨r, w5, h1, by rw [h2]; rfl⟩
end Goqris
